import Mathlib

/-!
Verification development for the BPSR-PSO-SX protocol decoding pipeline and
stateful aggregation engine.  The definitions below are a shallow embedding of
the JavaScript source (src/services/PacketProcessor.js, src/models/UserData.js
and the UserDataManager class defined at the bottom of PacketProcessor.js).
Bytes are modelled as natural numbers, buffers as lists of bytes, JS `Map`s as
association lists, and wall-clock time as an explicit `now : Nat` parameter
threaded through the state-mutating operations.
-/

namespace BPSR

set_option maxHeartbeats 1000000

/-! ## Association-list primitives (model of JS `Map`)

`aset` mirrors `Map.set` (replace the first binding of the key, or append a new
binding at the end), `aerase` mirrors `Map.delete`, `alookup` mirrors
`Map.get`. -/

def alookup {κ α : Type} [DecidableEq κ] : List (κ × α) → κ → Option α
  | [], _ => none
  | p :: rest, k => if p.1 = k then some p.2 else alookup rest k

def aset {κ α : Type} [DecidableEq κ] : List (κ × α) → κ → α → List (κ × α)
  | [], k, v => [(k, v)]
  | p :: rest, k, v => if p.1 = k then (k, v) :: rest else p :: aset rest k v

def aerase {κ α : Type} [DecidableEq κ] : List (κ × α) → κ → List (κ × α)
  | [], _ => []
  | p :: rest, k => if p.1 = k then aerase rest k else p :: aerase rest k

theorem alookup_aset_self {κ α : Type} [DecidableEq κ] (l : List (κ × α)) (k : κ) (v : α) :
    alookup (aset l k v) k = some v := by
  induction l with
  | nil => simp [aset, alookup]
  | cons p rest ih =>
    by_cases h : p.1 = k
    · simp [aset, alookup, h]
    · simp [aset, alookup, h, ih]

theorem alookup_aset_ne {κ α : Type} [DecidableEq κ] (l : List (κ × α)) (k k' : κ) (v : α)
    (h : k' ≠ k) : alookup (aset l k v) k' = alookup l k' := by
  induction l with
  | nil => simp [aset, alookup, Ne.symm h]
  | cons p rest ih =>
    by_cases hp : p.1 = k
    · subst hp
      simp [aset, alookup, Ne.symm h]
    · simp [aset, alookup, hp, ih]

theorem alookup_aerase_self {κ α : Type} [DecidableEq κ] (l : List (κ × α)) (k : κ) :
    alookup (aerase l k) k = none := by
  induction l with
  | nil => simp [aerase, alookup]
  | cons p rest ih =>
    by_cases h : p.1 = k
    · simpa [aerase, alookup, h] using ih
    · simpa [aerase, alookup, h] using ih

theorem alookup_aerase_ne {κ α : Type} [DecidableEq κ] (l : List (κ × α)) (k k' : κ)
    (h : k' ≠ k) : alookup (aerase l k) k' = alookup l k' := by
  induction l with
  | nil => simp [aerase, alookup]
  | cons p rest ih =>
    by_cases hp : p.1 = k
    · subst hp
      simp [aerase, alookup, Ne.symm h, ih]
    · by_cases hq : p.1 = k'
      · simp [aerase, alookup, hp, hq, h]
      · simp [aerase, alookup, hp, hq, ih]

theorem alookup_append {κ α : Type} [DecidableEq κ] (l₁ l₂ : List (κ × α)) (k : κ) :
    alookup (l₁ ++ l₂) k = ((alookup l₁ k).orElse fun _ => alookup l₂ k) := by
  induction l₁ with
  | nil => simp [alookup]
  | cons p rest ih =>
    by_cases h : p.1 = k
    · simp [alookup, h, Option.orElse]
    · simp [alookup, h, ih]

theorem alookup_mem {κ α : Type} [DecidableEq κ] (l : List (κ × α)) (k : κ) (v : α)
    (h : alookup l k = some v) : (k, v) ∈ l := by
  induction l with
  | nil => simp [alookup] at h
  | cons p rest ih =>
    obtain ⟨pk, pv⟩ := p
    by_cases hp : pk = k
    · simp [alookup, hp] at h
      subst hp
      subst h
      exact List.mem_cons_self _ _
    · simp [alookup, hp] at h
      exact List.mem_cons_of_mem _ (ih h)

theorem alookup_isSome_of_filter {κ α : Type} [DecidableEq κ] (f : κ × α → Bool)
    (l : List (κ × α)) (k : κ) (h : (alookup (l.filter f) k).isSome) :
    (alookup l k).isSome := by
  induction l with
  | nil => simp [alookup, List.filter] at h
  | cons p rest ih =>
    by_cases hp : p.1 = k
    · simp [alookup, hp]
    · by_cases hf : f p
      · simp [List.filter_cons, hf, alookup, hp] at h
        simpa [alookup, hp] using ih h
      · simp [List.filter_cons, hf, alookup, hp] at h
        simpa [alookup, hp] using ih h

/-! ## Frame Assembler (PacketProcessor.#parseBuffer / processDataChunk)

The byte stream is a `List Nat` (each entry one byte).  `readU32LE` models
`Buffer.readUInt32LE(0)`.  `doesStreamHaveIdentifier` models the helper of the
same name in PacketProcessor.js; the `BinaryReader` it relies on is not part of
the source tree and is modelled from the spec: a bounds-checked sequential
reader whose reads past the end of the buffer fail (`Except.error`). -/

def readU32LE : List Nat → Nat
  | b0 :: b1 :: b2 :: b3 :: _ => b0 + 256 * (b1 + 256 * (b2 + 256 * b3))
  | _ => 0

/-- Modelled from the source `doesStreamHaveIdentifier`, over a spec-modelled
`BinaryReader` (src/models/BinaryReader.js is absent from the source tree; the
spec describes it as a bounds-checked sequential reader, so an out-of-bounds
read is an error).  The helper reads two 32-bit words (8 bytes), compares the
first little-endian word with `0xfffffffe`, then reads two more words (bytes 8
to 16) before rewinding. -/
def doesStreamHaveIdentifier (bs : List Nat) : Except Unit Bool :=
  if bs.length < 8 then .ok false
  else if readU32LE bs ≠ 0xfffffffe then .ok false
  else if bs.length < 16 then .error ()
  else .ok true

/-- One run of `PacketProcessor.#parseBuffer` over the internal buffer.
Returns the frames handed to `#processSinglePacket` (the Message Dispatcher),
the internal buffer left behind, and whether a reader exception escaped. -/
def parseBuffer (buf : List Nat) : List (List Nat) × List Nat × Bool :=
  if _h4 : buf.length < 4 then ([], buf, false)
  else
    match doesStreamHaveIdentifier buf with
    | .error _ => ([], buf, true)
    | .ok false => parseBuffer (buf.drop 4)
    | .ok true =>
      let packetSize := readU32LE buf
      if _hrange : packetSize < 6 ∨ 1048576 < packetSize then ([], [], false)
      else if _hlen : buf.length < packetSize then ([], buf, false)
      else
        let rest := parseBuffer (buf.drop packetSize)
        (buf.take packetSize :: rest.1, rest.2)
termination_by buf.length
decreasing_by
  · simp only [List.length_drop]
    omega
  · simp only [List.length_drop]
    omega

/-- `PacketProcessor.processDataChunk`: append the chunk to the internal buffer
and run `#parseBuffer`. -/
def processDataChunk (buf chunk : List Nat) : List (List Nat) × List Nat × Bool :=
  if chunk.length = 0 then ([], buf, false)
  else parseBuffer (buf ++ chunk)

/-- Feeding a sequence of chunks to `processDataChunk`, collecting every frame
handed to the dispatcher. -/
def processChunks (buf : List Nat) : List (List Nat) → List (List Nat) × List Nat
  | [] => ([], buf)
  | c :: cs =>
    let r := processDataChunk buf c
    let rest := processChunks r.2.1 cs
    (r.1 ++ rest.1, rest.2)

theorem identifier_ok_true_readU32LE (bs : List Nat)
    (h : doesStreamHaveIdentifier bs = .ok true) : readU32LE bs = 4294967294 := by
  unfold doesStreamHaveIdentifier at h
  by_cases h8 : bs.length < 8
  · simp [h8] at h
  · by_cases hid : readU32LE bs = 4294967294
    · exact hid
    · simp [h8, hid] at h

theorem parseBuffer_frames_nil_aux (n : Nat) :
    ∀ buf : List Nat, buf.length ≤ n → (parseBuffer buf).1 = [] := by
  induction n with
  | zero =>
    intro buf h
    rw [parseBuffer]
    have h4 : buf.length < 4 := by omega
    simp [h4]
  | succ n ih =>
    intro buf h
    rw [parseBuffer]
    by_cases h4 : buf.length < 4
    · simp [h4]
    · simp only [h4, dite_false]
      cases hid : doesStreamHaveIdentifier buf with
      | error e => simp
      | ok b =>
        cases b with
        | false =>
          simp only []
          exact ih (buf.drop 4) (by simp [List.length_drop]; omega)
        | true =>
          have hsz := identifier_ok_true_readU32LE buf hid
          have hr : readU32LE buf < 6 ∨ 1048576 < readU32LE buf := by
            rw [hsz]; right; norm_num
          simp [hr]

/-- `#parseBuffer` never hands a frame to the Message Dispatcher: passing the
`doesStreamHaveIdentifier` gate forces the little-endian length word at offset
0 to be `0xfffffffe`, which always fails the `[6, 1048576]` range check. -/
theorem parseBuffer_frames_nil (buf : List Nat) : (parseBuffer buf).1 = [] :=
  parseBuffer_frames_nil_aux buf.length buf (le_refl _)

/-- C1: the Frame Assembler (`processDataChunk`) never delivers any frame to
the Message Dispatcher, however the input byte stream is split into chunks
and whatever the buffered state is.  This refutes the claim that a valid frame
with declared length in [6, 1048576] is delivered exactly once: the header
identifier check and the length range check of `#parseBuffer` are mutually
exclusive, so zero frames are ever delivered. -/
theorem claim_C1 (buf : List Nat) (chunks : List (List Nat)) :
    (processChunks buf chunks).1 = [] := by
  induction chunks generalizing buf with
  | nil => simp [processChunks]
  | cons c cs ih =>
    simp only [processChunks]
    have h1 : (processDataChunk buf c).1 = [] := by
      unfold processDataChunk
      by_cases hc : c.length = 0
      · simp [hc]
      · simp [hc, parseBuffer_frames_nil]
    rw [h1]
    simpa using ih _

/-- C7: on a buffer whose header identifier is valid, the declared length is
necessarily outside `[6, 1048576]` and the whole backlog is discarded with no
frame emitted; on an invalid header the assembler advances exactly 4 bytes and
retries. -/
theorem claim_C7 (buf : List Nat) :
    (doesStreamHaveIdentifier buf = .ok true →
      (readU32LE buf < 6 ∨ 1048576 < readU32LE buf) ∧ parseBuffer buf = ([], [], false))
    ∧ (4 ≤ buf.length → doesStreamHaveIdentifier buf = .ok false →
      parseBuffer buf = parseBuffer (buf.drop 4)) := by
  constructor
  · intro hid
    have hsz := identifier_ok_true_readU32LE buf hid
    have hr : readU32LE buf < 6 ∨ 1048576 < readU32LE buf := by
      rw [hsz]; right; norm_num
    refine ⟨hr, ?_⟩
    rw [parseBuffer]
    have h4 : ¬ buf.length < 4 := by
      intro hlt
      unfold doesStreamHaveIdentifier at hid
      have : buf.length < 8 := by omega
      simp [this] at hid
    simp [h4, hid, hr]
  · intro h4 hid
    rw [parseBuffer]
    have h4' : ¬ buf.length < 4 := by omega
    simp [h4', hid]

theorem claim_C7_witness :
    (parseBuffer ([0xfe, 0xff, 0xff, 0xff] ++ List.replicate 12 0) = ([], [], false))
    ∧ parseBuffer [1, 2, 3, 4, 5] = parseBuffer ([1, 2, 3, 4, 5].drop 4) := by
  constructor
  · exact ((claim_C7 ([0xfe, 0xff, 0xff, 0xff] ++ List.replicate 12 0)).1 (by rfl)).2
  · exact (claim_C7 [1, 2, 3, 4, 5]).2 (by norm_num) (by rfl)

/-! ## Statistics aggregate (src/models/StatisticData.js)

src/models/StatisticData.js is not part of the source tree; the aggregate is
modelled from the spec (§3 and §4.6): counts of
{normal, critical, lucky, critical-and-lucky, total} hits, matching cumulative
value totals, a transient realtime window of timestamped magnitudes and a
derived rate with an observed maximum. -/

inductive StatType where
  | damage
  | healing
deriving DecidableEq

structure StatCount where
  normal : Nat
  critical : Nat
  lucky : Nat
  crit_lucky : Nat
  total : Nat
deriving DecidableEq

structure StatBreakdown where
  normal : Nat
  critical : Nat
  lucky : Nat
  crit_lucky : Nat
  total : Nat
  hpLessen : Nat
deriving DecidableEq

structure RealtimeStats where
  value : Nat
  max : Nat
deriving DecidableEq

structure StatisticData where
  statType : StatType
  element : String
  count : StatCount
  stats : StatBreakdown
  realtimeWindow : List (Nat × Nat)
  realtimeStats : RealtimeStats
  startTs : Nat
deriving DecidableEq

/-- Modelled from the spec: a freshly-created statistics aggregate with all
counts and totals at zero. -/
def StatisticData.new (t : StatType) (element : String) (now : Nat) : StatisticData :=
  { statType := t, element := element,
    count := { normal := 0, critical := 0, lucky := 0, crit_lucky := 0, total := 0 },
    stats := { normal := 0, critical := 0, lucky := 0, crit_lucky := 0, total := 0,
               hpLessen := 0 },
    realtimeWindow := [], realtimeStats := { value := 0, max := 0 }, startTs := now }

/-- Modelled from the spec (§4.6): `addRecord(value, isCrit, isLucky,
hpLessenValue?)` increments the total count and the matching flag-bucket
count, adds `value` to the matching cumulative total and to the overall
total, and appends a timestamped entry to the realtime window. -/
def StatisticData.addRecord (s : StatisticData) (value : Nat) (isCrit isLucky : Bool)
    (hpLessenValue : Nat) (now : Nat) : StatisticData :=
  let c := s.count
  let t := s.stats
  let count :=
    if isCrit ∧ isLucky then { c with crit_lucky := c.crit_lucky + 1, total := c.total + 1 }
    else if isCrit then { c with critical := c.critical + 1, total := c.total + 1 }
    else if isLucky then { c with lucky := c.lucky + 1, total := c.total + 1 }
    else { c with normal := c.normal + 1, total := c.total + 1 }
  let stats :=
    if isCrit ∧ isLucky then
      { t with crit_lucky := t.crit_lucky + value, total := t.total + value,
               hpLessen := t.hpLessen + hpLessenValue }
    else if isCrit then
      { t with critical := t.critical + value, total := t.total + value,
               hpLessen := t.hpLessen + hpLessenValue }
    else if isLucky then
      { t with lucky := t.lucky + value, total := t.total + value,
               hpLessen := t.hpLessen + hpLessenValue }
    else
      { t with normal := t.normal + value, total := t.total + value,
               hpLessen := t.hpLessen + hpLessenValue }
  { s with count := count, stats := stats,
           realtimeWindow := s.realtimeWindow ++ [(now, value)] }

/-- Modelled from the spec (§4.6): rate = cumulative total divided by the
elapsed seconds since the aggregate was created. -/
def StatisticData.getTotalPerSecond (s : StatisticData) (now : Nat) : Nat :=
  s.stats.total / max 1 ((now - s.startTs) / 1000)

/-! ## User record (src/models/UserData.js) -/

/-- The fixed skill-id → specialization lookup table
(`getSubProfessionBySkillId` in src/models/UserData.js). -/
def getSubProfessionBySkillId (skillId : Nat) : String :=
  match skillId with
  | 1241 => "frostbeam"
  | 2307 => "concerto"
  | 2361 => "concerto"
  | 55302 => "concerto"
  | 20301 => "lifebind"
  | 1518 => "smite"
  | 1541 => "smite"
  | 21402 => "smite"
  | 2306 => "dissonance"
  | 120901 => "icicle"
  | 120902 => "icicle"
  | 1714 => "iaido"
  | 1734 => "iaido"
  | 44701 => "moonstrike"
  | 179906 => "moonstrike"
  | 220112 => "falconry"
  | 2203622 => "falconry"
  | 2292 => "wildpack"
  | 1700820 => "wildpack"
  | 1700825 => "wildpack"
  | 1700827 => "wildpack"
  | 1419 => "vanguard"
  | 1405 => "skyward"
  | 1418 => "skyward"
  | 2405 => "shield"
  | 2406 => "recovery"
  | 199902 => "earthfort"
  | 1930 => "block"
  | 1931 => "block"
  | 1934 => "block"
  | 1935 => "block"
  | _ => ""

/-- `HEAL_OFFSET` in src/models/UserData.js. -/
def healOffset : Nat := 1000000000

structure UserData where
  uid : Nat
  name : String
  damageStats : StatisticData
  healingStats : StatisticData
  takenDamage : Nat
  deadCount : Nat
  profession : String
  skillUsage : List (Nat × StatisticData)
  fightPoint : Nat
  subProfession : String
  subProfessionUsage : String → Nat
  attr : List (String × Nat)
  lastUpdateTime : Nat

/-- `new UserData(uid)`. -/
def UserData.new (uid : Nat) (now : Nat) : UserData :=
  { uid := uid, name := "",
    damageStats := StatisticData.new .damage "" now,
    healingStats := StatisticData.new .healing "" now,
    takenDamage := 0, deadCount := 0, profession := "...",
    skillUsage := [], fightPoint := 0, subProfession := "",
    subProfessionUsage := fun _ => 0, attr := [], lastUpdateTime := now }

def UserData.setSubProfession (u : UserData) (subProfession : String) (now : Nat) : UserData :=
  { u with subProfession := subProfession, lastUpdateTime := now }

def UserData.setProfession (u : UserData) (profession : String) (now : Nat) : UserData :=
  if profession ≠ u.profession then
    { u with profession := profession, subProfession := "",
             subProfessionUsage := fun _ => 0, lastUpdateTime := now }
  else
    { u with profession := profession, lastUpdateTime := now }

def UserData.setName (u : UserData) (name : String) (now : Nat) : UserData :=
  { u with name := name, lastUpdateTime := now }

def UserData.setFightPoint (u : UserData) (fightPoint : Nat) (now : Nat) : UserData :=
  { u with fightPoint := fightPoint, lastUpdateTime := now }

def UserData.setAttrKV (u : UserData) (key : String) (value : Nat) (now : Nat) : UserData :=
  { u with attr := aset u.attr key value, lastUpdateTime := now }

/-- `UserData.updateSubProfession(skillId)`: sub-profession inference with the
2x-usage hysteresis. -/
def UserData.updateSubProfession (u : UserData) (skillId : Nat) (now : Nat) : UserData :=
  let subProfession := getSubProfessionBySkillId skillId
  if subProfession = "" then u
  else if u.profession = "..." ∨ u.profession = "" then u
  else
    let newCount := u.subProfessionUsage subProfession + 1
    let u1 : UserData :=
      { u with subProfessionUsage :=
          fun s => if s = subProfession then newCount else u.subProfessionUsage s }
    if u1.subProfession = "" then u1.setSubProfession subProfession now
    else if u1.subProfession = subProfession then u1
    else
      let currentSubCount := u1.subProfessionUsage u1.subProfession
      if currentSubCount * 2 ≤ newCount then u1.setSubProfession subProfession now
      else u1

/-- `UserData.addDamage(skillId, element, damage, isCrit, isLucky,
isCauseLucky, hpLessenValue)`.  The per-skill aggregate is created on first
use, receives the record (with `isCauseLucky` passed in the lucky slot, as in
the source) and has its realtime window truncated. -/
def UserData.addDamage (u : UserData) (skillId : Nat) (element : String) (damage : Nat)
    (isCrit isLucky isCauseLucky : Bool) (hpLessenValue : Nat) (now : Nat) : UserData :=
  let u := { u with lastUpdateTime := now }
  let u := { u with damageStats := u.damageStats.addRecord damage isCrit isLucky hpLessenValue now }
  let entry := (alookup u.skillUsage skillId).getD (StatisticData.new .damage element now)
  let entry := entry.addRecord damage isCrit isCauseLucky hpLessenValue now
  let entry := { entry with realtimeWindow := [] }
  let u := { u with skillUsage := aset u.skillUsage skillId entry }
  u.updateSubProfession skillId now

/-- `UserData.addHealing(skillId, element, healing, isCrit, isLucky,
isCauseLucky)`: healing skills are stored under `skillId + HEAL_OFFSET`;
sub-profession inference still uses the raw skill id. -/
def UserData.addHealing (u : UserData) (skillId : Nat) (element : String) (healing : Nat)
    (isCrit isLucky isCauseLucky : Bool) (now : Nat) : UserData :=
  let u := { u with lastUpdateTime := now }
  let u := { u with healingStats := u.healingStats.addRecord healing isCrit isLucky 0 now }
  let healSkillId := skillId + healOffset
  let entry := (alookup u.skillUsage healSkillId).getD (StatisticData.new .healing element now)
  let entry := entry.addRecord healing isCrit isCauseLucky 0 now
  let entry := { entry with realtimeWindow := [] }
  let u := { u with skillUsage := aset u.skillUsage healSkillId entry }
  u.updateSubProfession skillId now

/-- `UserData.addTakenDamage(damage, isDead)`. -/
def UserData.addTakenDamage (u : UserData) (damage : Nat) (isDead : Bool) (now : Nat) :
    UserData :=
  { u with takenDamage := u.takenDamage + damage,
           deadCount := if isDead then u.deadCount + 1 else u.deadCount,
           lastUpdateTime := now }

structure TotalCount where
  normal : Nat
  critical : Nat
  lucky : Nat
  total : Nat
deriving DecidableEq

/-- `UserData.getTotalCount()`. -/
def UserData.getTotalCount (u : UserData) : TotalCount :=
  { normal := u.damageStats.count.normal + u.healingStats.count.normal,
    critical := u.damageStats.count.critical + u.healingStats.count.critical,
    lucky := u.damageStats.count.lucky + u.healingStats.count.lucky,
    total := u.damageStats.count.total + u.healingStats.count.total }

structure Summary where
  realtime_dps : Nat
  realtime_dps_max : Nat
  total_dps : Nat
  total_damage : StatBreakdown
  total_count : TotalCount
  realtime_hps : Nat
  realtime_hps_max : Nat
  total_hps : Nat
  total_healing : StatBreakdown
  taken_damage : Nat
  profession : String
  subProfession : String
  name : String
  fightPoint : Nat
  hp : Option Nat
  max_hp : Option Nat
  dead_count : Nat

/-- `UserData.getSummary()` (time is threaded explicitly for the derived
rates). -/
def UserData.getSummary (u : UserData) (now : Nat) : Summary :=
  { realtime_dps := u.damageStats.realtimeStats.value,
    realtime_dps_max := u.damageStats.realtimeStats.max,
    total_dps := u.damageStats.getTotalPerSecond now,
    total_damage := u.damageStats.stats,
    total_count := u.getTotalCount,
    realtime_hps := u.healingStats.realtimeStats.value,
    realtime_hps_max := u.healingStats.realtimeStats.max,
    total_hps := u.healingStats.getTotalPerSecond now,
    total_healing := u.healingStats.stats,
    taken_damage := u.takenDamage,
    profession := u.profession ++ (if u.subProfession ≠ "" then " " ++ u.subProfession else ""),
    subProfession := u.subProfession,
    name := u.name, fightPoint := u.fightPoint,
    hp := alookup u.attr "hp", max_hp := alookup u.attr "max_hp",
    dead_count := u.deadCount }

structure SkillEntry where
  displayName : String
  statType : StatType
  elementType : String
  totalDamage : Nat
  totalHealing : Nat
  totalCount : Nat
  critCount : Nat
  luckyCount : Nat
  damageBreakdown : StatBreakdown
  healingBreakdown : StatBreakdown
  countBreakdown : StatCount
deriving DecidableEq

/-- `UserData.getSkillSummary()`.  The static skill-name table
(src/tables/skill_names.json) is not part of the source tree and is passed in
as `tbl`; a missing entry falls back to the raw numeric id, exactly as the
source falls back to `baseSkillId`.  The floating-point `critRate`/`luckyRate`
fields are omitted (real-valued ratios are outside this embedding).  The
healing offset is removed via `skillId % HEAL_OFFSET` to recover the raw id. -/
def skillEntryOf (tbl : Nat → Option String) (skillId : Nat) (stat : StatisticData) :
    SkillEntry :=
  let baseSkillId := skillId % healOffset
  let name := (tbl baseSkillId).getD (toString baseSkillId)
  let isHealing := stat.statType = StatType.healing
  { displayName := name, statType := stat.statType, elementType := stat.element,
    totalDamage := if isHealing then 0 else stat.stats.total,
    totalHealing := if isHealing then stat.stats.total else 0,
    totalCount := stat.count.total, critCount := stat.count.critical,
    luckyCount := stat.count.lucky,
    damageBreakdown := stat.stats, healingBreakdown := stat.stats,
    countBreakdown := stat.count }

def UserData.getSkillSummary (u : UserData) (tbl : Nat → Option String) :
    List (Nat × SkillEntry) :=
  u.skillUsage.map fun p => (p.1, skillEntryOf tbl p.1 p.2)

theorem alookup_map_entry {α β : Type} (l : List (Nat × α)) (g : Nat → α → β) (k : Nat) :
    alookup (l.map fun p => (p.1, g p.1 p.2)) k = (alookup l k).map (g k) := by
  induction l with
  | nil => simp [alookup]
  | cons p rest ih =>
    by_cases hp : p.1 = k
    · subst hp
      simp [alookup, ih]
    · simp [alookup, hp, ih]

/-- C3: sub-profession hysteresis.  With the primary profession known and no
sub-profession usage recorded yet, one skill event for candidate A followed by
one for candidate B leaves the sub-profession at A (count 1 is not ≥ 2 × 1);
a second event for B (count 2 ≥ 2 × 1) switches it to B. -/
theorem claim_C3 (u : UserData) (sA sB : Nat) (nA nB nC : Nat)
    (hprof1 : u.profession ≠ "...") (hprof2 : u.profession ≠ "")
    (hsub : u.subProfession = "")
    (husage : ∀ s, u.subProfessionUsage s = 0)
    (ha : getSubProfessionBySkillId sA ≠ "")
    (hb : getSubProfessionBySkillId sB ≠ "")
    (hab : getSubProfessionBySkillId sA ≠ getSubProfessionBySkillId sB) :
    ((u.updateSubProfession sA nA).updateSubProfession sB nB).subProfession
      = getSubProfessionBySkillId sA
    ∧ (((u.updateSubProfession sA nA).updateSubProfession sB nB).updateSubProfession
        sB nC).subProfession = getSubProfessionBySkillId sB := by
  set a := getSubProfessionBySkillId sA with hadef
  set b := getSubProfessionBySkillId sB with hbdef
  have hprofor : ¬ (u.profession = "..." ∨ u.profession = "") := by
    simp [hprof1, hprof2]
  have h1 : (u.updateSubProfession sA nA) =
      { u with subProfession := a,
               subProfessionUsage := fun s => if s = a then 1 else u.subProfessionUsage s,
               lastUpdateTime := nA } := by
    rw [UserData.updateSubProfession]
    simp only [← hadef, ha, if_neg, hprofor, ite_false, if_false]
    simp [ha, hprofor, hsub, husage, UserData.setSubProfession]
  have h2 : ((u.updateSubProfession sA nA).updateSubProfession sB nB) =
      { u with subProfession := a,
               subProfessionUsage := fun s => if s = b then 1
                 else if s = a then 1 else u.subProfessionUsage s,
               lastUpdateTime := nA } := by
    rw [h1, UserData.updateSubProfession]
    simp only [← hbdef]
    have hba : b ≠ a := Ne.symm hab
    simp [hb, hprofor, ha, Ne.symm hab, hba, husage, hab]
  constructor
  · rw [h2]
  · rw [h2, UserData.updateSubProfession]
    simp only [← hbdef]
    have hba : b ≠ a := Ne.symm hab
    simp [hb, hprofor, ha, hba, husage, hab, UserData.setSubProfession]

theorem claim_C3_witness :
    ((UserData.new 1 0).setProfession "Frost Mage" 0).profession ≠ "..."
    ∧ ((((((UserData.new 1 0).setProfession "Frost Mage" 0).updateSubProfession 1241
          1).updateSubProfession 2306 2).subProfession = getSubProfessionBySkillId 1241)
      ∧ (((((UserData.new 1 0).setProfession "Frost Mage" 0).updateSubProfession 1241
          1).updateSubProfession 2306 2).updateSubProfession 2306 3).subProfession
          = getSubProfessionBySkillId 2306) := by
  refine ⟨by decide, ?_⟩
  exact claim_C3 ((UserData.new 1 0).setProfession "Frost Mage" 0) 1241 2306 1 2 3
    (by decide) (by decide) (by decide) (fun _ => rfl) (by decide) (by decide) (by decide)

/-- C6: healing-skill key round trip.  `addHealing` stores the per-skill
aggregate under `skillId + 1_000_000_000`; `getSkillSummary` recovers the raw
id as `key % 1_000_000_000`, exactly for `s < 1_000_000_000`, and the healing
key never equals the damage key of the same raw skill id. -/
theorem claim_C6 (u : UserData) (s : Nat) (element : String) (amt : Nat)
    (c l cl : Bool) (now : Nat) (tbl : Nat → Option String)
    (hs : s < 1000000000) :
    (alookup (u.addHealing s element amt c l cl now).skillUsage (s + healOffset)).isSome = true
    ∧ (s + healOffset) % healOffset = s
    ∧ s + healOffset ≠ s
    ∧ ∃ e, alookup ((u.addHealing s element amt c l cl now).getSkillSummary tbl)
          (s + healOffset) = some e
        ∧ e.displayName = (tbl s).getD (toString s) := by
  have hmod : (s + healOffset) % healOffset = s := by
    rw [Nat.add_mod_right]
    exact Nat.mod_eq_of_lt hs
  have hset : (alookup (u.addHealing s element amt c l cl now).skillUsage
      (s + healOffset)).isSome = true := by
    rw [UserData.addHealing]
    simp only [UserData.updateSubProfession, UserData.setSubProfession]
    split
    · simp [alookup_aset_self]
    · split
      · simp [alookup_aset_self]
      · split
        · simp [alookup_aset_self]
        · split
          · simp [alookup_aset_self]
          · split
            · simp [alookup_aset_self]
            · simp [alookup_aset_self]
  refine ⟨hset, hmod, by simp only [healOffset]; omega, ?_⟩
  rw [UserData.getSkillSummary]
  rw [alookup_map_entry]
  rcases hsome : alookup (u.addHealing s element amt c l cl now).skillUsage
      (s + healOffset) with _ | stat
  · rw [hsome] at hset
    simp at hset
  · refine ⟨_, rfl, ?_⟩
    simp [skillEntryOf, hmod]

/-! ## Entity & Session State Store (class UserDataManager in
src/services/PacketProcessor.js)

JS `Map`s keyed by `String(uid)` (the persisted user cache) are modelled with
`Nat` keys, using the bijection between uids and their decimal strings.
File-system side effects (cache flushes, log appends, per-session JSON
writes) are dropped: the spec requires their failures to never affect
in-memory state.  The sessions persistence collaborator is modelled by
returning the list of records handed to `Sessions.addSession`. -/

structure Config where
  isPaused : Bool
  onlyRecordEliteDummy : Bool

structure CachedUser where
  cName : Option String
  cProfession : Option String
  cSubProfession : Option String
  cFightPoint : Option Nat
  cMaxHp : Option Nat

structure Session where
  sid : String
  sname : String
  startedAt : Nat
  reasonStart : String
  seq : Option Nat
  instanceId : Option Nat
  fromInstance : Option Nat

structure Spell where
  spellId : String
  spellName : String
  damage : Nat
  heal : Nat
  value : Nat
  kind : StatType

structure PlayerSnapshot where
  uid : Nat
  name : String
  profession : String
  fightPoint : Nat
  dps : Nat
  hps : Nat
  totalDamage : Nat
  totalHeal : Nat
  topDamageSpells : List Spell
  topHealSpells : List Spell
  topAllSpells : List Spell
  skills : List (Nat × SkillEntry)
  attr : List (String × Nat)

structure SessionRecord where
  rid : String
  rname : String
  startedAt : Nat
  endedAt : Nat
  durationMs : Nat
  reasonStart : String
  reasonEnd : String
  seq : Option Nat
  instanceId : Option Nat
  fromInstance : Option Nat
  partySize : Nat
  players : List PlayerSnapshot
  usersAgg : List (Nat × Summary)

structure ManagerState where
  users : List (Nat × UserData)
  userGraveyard : List (Nat × UserData)
  userCache : List (Nat × CachedUser)
  hpCache : List (Nat × Nat)
  currentSession : Option Session
  enemyName : List (Nat × String)
  enemyHp : List (Nat × Nat)
  enemyMaxHp : List (Nat × Nat)
  fightLog : List String
  lastLogTime : Nat
  startTime : Nat

def initialManagerState (now : Nat) : ManagerState :=
  { users := [], userGraveyard := [], userCache := [], hpCache := [],
    currentSession := none, enemyName := [], enemyHp := [], enemyMaxHp := [],
    fightLog := [], lastLogTime := 0, startTime := now }

/-- Hydration of a freshly-created user from the persisted cache, as in
`UserDataManager.getUser` (truthiness of the cached name/profession strings is
non-emptiness; `fightPoint != null` / `maxHp != null` is `Option.isSome`). -/
def hydrateFromCache (u : UserData) (c : CachedUser) (now : Nat) : UserData :=
  let u := match c.cName with
    | some n => if n ≠ "" then u.setName n now else u
    | none => u
  let u := match c.cProfession with
    | some p => if p ≠ "" then u.setProfession p now else u
    | none => u
  let u := match c.cSubProfession with
    | some sp => if sp ≠ "" then u.setSubProfession sp now else u
    | none => u
  let u := match c.cFightPoint with
    | some fp => u.setFightPoint fp now
    | none => u
  match c.cMaxHp with
  | some mh => u.setAttrKV "max_hp" mh now
  | none => u

/-- `UserDataManager.getUser(uid)`: return the live user, revive one from the
graveyard, or create a fresh record hydrated from the persisted cache and the
HP cache. -/
def ManagerState.getUser (st : ManagerState) (uid : Nat) (now : Nat) :
    UserData × ManagerState :=
  match alookup st.users uid with
  | some u => (u, st)
  | none =>
    match alookup st.userGraveyard uid with
    | some u =>
      (u, { st with userGraveyard := aerase st.userGraveyard uid,
                    users := aset st.users uid u })
    | none =>
      let u := UserData.new uid now
      let u := match alookup st.userCache uid with
        | some c => hydrateFromCache u c now
        | none => u
      let u := match alookup st.hpCache uid with
        | some hp => u.setAttrKV "hp" hp now
        | none => u
      (u, { st with users := aset st.users uid u })

/-- `UserDataManager.addDamage`. -/
def ManagerState.addDamage (st : ManagerState) (cfg : Config) (uid skillId : Nat)
    (element : String) (damage : Nat) (isCrit isLucky isCauseLucky : Bool)
    (hpLessenValue : Nat) (targetUid : Nat) (now : Nat) : ManagerState :=
  if cfg.isPaused then st
  else if cfg.onlyRecordEliteDummy ∧ targetUid ≠ 75 then st
  else
    let r := st.getUser uid now
    let u := r.1.addDamage skillId element damage isCrit isLucky isCauseLucky hpLessenValue now
    { r.2 with users := aset r.2.users uid u }

/-- `UserDataManager.addHealing`: a no-op while paused, and a no-op for the
unknown attacker `uid = 0`. -/
def ManagerState.addHealing (st : ManagerState) (cfg : Config) (uid skillId : Nat)
    (element : String) (healing : Nat) (isCrit isLucky isCauseLucky : Bool)
    (_targetUid : Nat) (now : Nat) : ManagerState :=
  if cfg.isPaused then st
  else if uid ≠ 0 then
    let r := st.getUser uid now
    let u := r.1.addHealing skillId element healing isCrit isLucky isCauseLucky now
    { r.2 with users := aset r.2.users uid u }
  else st

/-- `UserDataManager.addTakenDamage`. -/
def ManagerState.addTakenDamage (st : ManagerState) (cfg : Config) (uid : Nat)
    (damage : Nat) (isDead : Bool) (now : Nat) : ManagerState :=
  if cfg.isPaused then st
  else
    let r := st.getUser uid now
    { r.2 with users := aset r.2.users uid (r.1.addTakenDamage damage isDead now) }

/-- `UserDataManager.addLog`: appends to the combat log (file I/O dropped) and
refreshes `lastLogTime`; a no-op while paused. -/
def ManagerState.addLog (st : ManagerState) (cfg : Config) (log : String) (now : Nat) :
    ManagerState :=
  if cfg.isPaused then st
  else { st with fightLog := st.fightLog ++ [log], lastLogTime := now }

def cacheWith (st : ManagerState) (uid : Nat) (f : CachedUser → CachedUser) :
    List (Nat × CachedUser) :=
  let c := (alookup st.userCache uid).getD
    { cName := none, cProfession := none, cSubProfession := none,
      cFightPoint := none, cMaxHp := none }
  aset st.userCache uid (f c)

/-- `UserDataManager.setName(uid, name)`: update only on change, mirrored into
the persisted cache. -/
def ManagerState.setName (st : ManagerState) (uid : Nat) (name : String) (now : Nat) :
    ManagerState :=
  let r := st.getUser uid now
  if r.1.name ≠ name then
    { r.2 with users := aset r.2.users uid (r.1.setName name now),
               userCache := cacheWith r.2 uid fun c => { c with cName := some name } }
  else r.2

/-- `UserDataManager.setProfession(uid, profession)`: empty profession names
are rejected; update only on change, mirrored into the persisted cache. -/
def ManagerState.setProfession (st : ManagerState) (uid : Nat) (profession : String)
    (now : Nat) : ManagerState :=
  if profession = "" then st
  else
    let r := st.getUser uid now
    if r.1.profession ≠ profession then
      { r.2 with users := aset r.2.users uid (r.1.setProfession profession now),
                 userCache := cacheWith r.2 uid fun c =>
                   { c with cProfession := some profession } }
    else r.2

/-- `UserDataManager.setFightPoint(uid, fightPoint)`. -/
def ManagerState.setFightPoint (st : ManagerState) (uid : Nat) (fightPoint : Nat)
    (now : Nat) : ManagerState :=
  let r := st.getUser uid now
  if r.1.fightPoint ≠ fightPoint then
    { r.2 with users := aset r.2.users uid (r.1.setFightPoint fightPoint now),
               userCache := cacheWith r.2 uid fun c =>
                 { c with cFightPoint := some fightPoint } }
  else r.2

/-- `UserDataManager.setAttrKV(uid, key, value)`: writes the attribute
directly (without touching the activity timestamp, as in the source), and
mirrors `max_hp` into the persisted cache and `hp` into the HP cache. -/
def ManagerState.setAttrKV (st : ManagerState) (uid : Nat) (key : String) (value : Nat)
    (now : Nat) : ManagerState :=
  let r := st.getUser uid now
  let st2 := { r.2 with users := aset r.2.users uid { r.1 with attr := aset r.1.attr key value } }
  let st3 := if key = "max_hp" then
      { st2 with userCache := cacheWith st2 uid fun c => { c with cMaxHp := some value } }
    else st2
  if key = "hp" then { st3 with hpCache := aset st3.hpCache uid value } else st3

/-- `UserDataManager.deleteEnemyData(id)`. -/
def ManagerState.deleteEnemyData (st : ManagerState) (uid : Nat) : ManagerState :=
  { st with enemyName := aerase st.enemyName uid,
            enemyHp := aerase st.enemyHp uid,
            enemyMaxHp := aerase st.enemyMaxHp uid }

/-- `UserDataManager._getAnyUser(uid)`. -/
def ManagerState.getAnyUser (st : ManagerState) (uid : Nat) : Option UserData :=
  (alookup st.users uid).orElse fun _ => alookup st.userGraveyard uid

def dedupEntries : List Nat → List (Nat × UserData) → List (Nat × UserData)
  | _, [] => []
  | seen, p :: rest =>
    if p.1 ∈ seen then dedupEntries seen rest
    else p :: dedupEntries (p.1 :: seen) rest

/-- `UserDataManager._getAllUserEntries()`: live entries first, then
graveyard entries, deduplicated by uid. -/
def allUserEntries (st : ManagerState) : List (Nat × UserData) :=
  dedupEntries [] (st.users ++ st.userGraveyard)

/-- `UserDataManager.getAllUsersData()`. -/
def getAllUsersData (st : ManagerState) (now : Nat) : List (Nat × Summary) :=
  (allUserEntries st).map fun p => (p.1, p.2.getSummary now)

/-- Modelled from the spec: the static skill-name table
(src/tables/skill_names.json is not part of the source tree); missing entries
fall back to the raw numeric id. -/
def skillNamesTable : Nat → Option String := fun _ => none

def insertSpellDesc (key : Spell → Nat) (x : Spell) : List Spell → List Spell
  | [] => [x]
  | y :: ys => if key y < key x then x :: y :: ys else y :: insertSpellDesc key x ys

def sortSpellsDesc (key : Spell → Nat) (l : List Spell) : List Spell :=
  l.foldr (insertSpellDesc key) []

def top3By (key : Spell → Nat) (l : List Spell) : List Spell :=
  (sortSpellsDesc key l).take 3

/-- `UserDataManager._buildPlayerSnapshot(uid)`: `none` when the user is
unknown or when both totals are at most 5000 ("skip si peu de
dégâts/soins"). -/
def ManagerState.buildPlayerSnapshot (st : ManagerState) (uid : Nat) (now : Nat) :
    Option PlayerSnapshot :=
  match st.getAnyUser uid with
  | none => none
  | some u =>
    let sum := u.getSummary now
    let totalDamage := sum.total_damage.total
    let totalHeal := sum.total_healing.total
    if totalDamage ≤ 5000 ∧ totalHeal ≤ 5000 then none
    else
      let skills := u.getSkillSummary skillNamesTable
      let spells := (skills.map fun p =>
          let dmg := p.2.totalDamage
          let heal := p.2.totalHealing
          let kind := if dmg < heal then StatType.healing
            else if heal < dmg then StatType.damage
            else if 0 < heal then StatType.healing else StatType.damage
          { spellId := p.2.displayName, spellName := p.2.displayName,
            damage := dmg, heal := heal, value := max dmg heal, kind := kind : Spell }
        ).filter fun sp => decide (0 < sp.value)
      some
        { uid := u.uid,
          name := if u.name ≠ "" then u.name else toString u.uid,
          profession := u.profession
            ++ (if u.subProfession ≠ "" then " " ++ u.subProfession else ""),
          fightPoint := u.fightPoint,
          dps := sum.total_dps, hps := sum.total_hps,
          totalDamage := totalDamage, totalHeal := totalHeal,
          topDamageSpells := top3By (fun sp => sp.damage)
            (spells.filter fun sp => decide (0 < sp.damage)),
          topHealSpells := top3By (fun sp => sp.heal)
            (spells.filter fun sp => decide (0 < sp.heal)),
          topAllSpells := top3By (fun sp => sp.value) spells,
          skills := skills, attr := u.attr }

/-- `UserDataManager._finalizeAndPersistSession(reasonEnd)`: when a session is
active, snapshot all users, keep the qualifying players, and hand exactly one
record to `Sessions.addSession` unless no player qualifies.  The returned list
is the sequence of records given to the persistence collaborator. -/
def ManagerState.finalizeAndPersistSession (st : ManagerState) (reasonEnd : String)
    (now : Nat) : ManagerState × List SessionRecord :=
  match st.currentSession with
  | none => (st, [])
  | some s =>
    let snapshotUsers := getAllUsersData st now
    let players := (allUserEntries st).filterMap fun p => st.buildPlayerSnapshot p.1 now
    if players.length = 0 then
      ({ st with currentSession := none }, [])
    else
      let rec_ : SessionRecord :=
        { rid := s.sid, rname := s.sname, startedAt := s.startedAt, endedAt := now,
          durationMs := now - s.startedAt, reasonStart := s.reasonStart,
          reasonEnd := reasonEnd, seq := s.seq, instanceId := s.instanceId,
          fromInstance := s.fromInstance, partySize := players.length,
          players := players, usersAgg := snapshotUsers }
      ({ st with currentSession := none }, [rec_])

/-- `UserDataManager.clearAll(opts)`: optionally finalize the session, then
reset the user maps and timers (the on-disk dump of the old users is a pure
side effect and is dropped). -/
def ManagerState.clearAll (st : ManagerState) (persistSession : Bool) (reasonEnd : String)
    (now : Nat) : ManagerState :=
  let st := if persistSession then (st.finalizeAndPersistSession reasonEnd now).1 else st
  { st with users := [], userGraveyard := [], startTime := now, lastLogTime := 0 }

/-- `UserDataManager.cleanUpInactiveUsers()`: users untouched for more than
60 seconds move from the live map to the graveyard. -/
def ManagerState.cleanUpInactiveUsers (st : ManagerState) (now : Nat) : ManagerState :=
  let inactive := st.users.filter fun p => decide (60000 < now - p.2.lastUpdateTime)
  { st with
      users := st.users.filter fun p => decide (¬ 60000 < now - p.2.lastUpdateTime),
      userGraveyard := inactive.foldl (fun g p => aset g p.1 p.2) st.userGraveyard }

theorem claim_C6_witness :
    2306 < 1000000000
    ∧ ((alookup ((UserData.new 1 0).addHealing 2306 "e" 50 false false false 3).skillUsage
          (2306 + healOffset)).isSome = true
      ∧ (2306 + healOffset) % healOffset = 2306
      ∧ 2306 + healOffset ≠ 2306
      ∧ ∃ e, alookup (((UserData.new 1 0).addHealing 2306 "e" 50 false false false
            3).getSkillSummary fun _ => none) (2306 + healOffset) = some e
          ∧ e.displayName = (none : Option String).getD (toString 2306)) :=
  ⟨by norm_num,
    claim_C6 (UserData.new 1 0) 2306 "e" 50 false false false 3 (fun _ => none)
      (by norm_num)⟩

/-- C8: while `IS_PAUSED` is set, `addDamage`, `addHealing` and
`addTakenDamage` return without mutating anything: the state is unchanged, so
no user record is created and no aggregate, per-skill statistic, taken-damage
total or sub-profession counter changes. -/
theorem claim_C8 (st : ManagerState) (cfg : Config) (uid skillId : Nat)
    (element : String) (damage healing : Nat) (isCrit isLucky isCauseLucky isDead : Bool)
    (hpLessenValue targetUid now : Nat) (hp : cfg.isPaused = true) :
    st.addDamage cfg uid skillId element damage isCrit isLucky isCauseLucky
      hpLessenValue targetUid now = st
    ∧ st.addHealing cfg uid skillId element healing isCrit isLucky isCauseLucky
      targetUid now = st
    ∧ st.addTakenDamage cfg uid damage isDead now = st := by
  refine ⟨?_, ?_, ?_⟩ <;>
    simp [ManagerState.addDamage, ManagerState.addHealing,
      ManagerState.addTakenDamage, hp]

theorem claim_C8_witness :
    ({ isPaused := true, onlyRecordEliteDummy := false } : Config).isPaused = true
    ∧ ((initialManagerState 0).addDamage
        { isPaused := true, onlyRecordEliteDummy := false } 1 1241 "e" 100 false false
        false 0 75 5 = initialManagerState 0
      ∧ (initialManagerState 0).addHealing
        { isPaused := true, onlyRecordEliteDummy := false } 1 1241 "e" 100 false false
        false 7 5 = initialManagerState 0
      ∧ (initialManagerState 0).addTakenDamage
        { isPaused := true, onlyRecordEliteDummy := false } 1 100 false 5
        = initialManagerState 0) :=
  ⟨rfl, claim_C8 (initialManagerState 0)
    { isPaused := true, onlyRecordEliteDummy := false } 1 1241 "e" 100 100 false false
    false false 0 75 5 rfl⟩

/-- C9: `getUser` is idempotent.  A second call with no intervening mutation
returns the very same user record (hence the same totals, name, profession and
attributes) and leaves the state untouched, whichever of the three paths
(live, graveyard revival, fresh creation) the first call took. -/
theorem claim_C9 (st : ManagerState) (uid now1 now2 : Nat) :
    ManagerState.getUser (st.getUser uid now1).2 uid now2
      = ((st.getUser uid now1).1, (st.getUser uid now1).2) := by
  cases h1 : alookup st.users uid with
  | some u =>
    simp [ManagerState.getUser, h1]
  | none =>
    cases h2 : alookup st.userGraveyard uid with
    | some u =>
      simp [ManagerState.getUser, h1, h2, alookup_aset_self]
    | none =>
      simp [ManagerState.getUser, h1, h2, alookup_aset_self]

/-! ## Live/graveyard disjointness (C10) -/

inductive StoreOp where
  | opGetUser (uid now : Nat)
  | opCleanup (now : Nat)
  | opClearAll (persistSession : Bool) (reasonEnd : String) (now : Nat)

def applyOp (st : ManagerState) : StoreOp → ManagerState
  | .opGetUser uid now => (st.getUser uid now).2
  | .opCleanup now => st.cleanUpInactiveUsers now
  | .opClearAll p r now => st.clearAll p r now

def applyOps : ManagerState → List StoreOp → ManagerState
  | st, [] => st
  | st, op :: ops => applyOps (applyOp st op) ops

def keysNodup (l : List (Nat × UserData)) : Prop := (l.map Prod.fst).Nodup

def disjointMaps (st : ManagerState) : Prop :=
  ∀ uid, ¬ ((alookup st.users uid).isSome ∧ (alookup st.userGraveyard uid).isSome)

def storeInv (st : ManagerState) : Prop :=
  keysNodup st.users ∧ keysNodup st.userGraveyard ∧ disjointMaps st

theorem mem_keys_aset {α : Type} (l : List (Nat × α)) (k : Nat) (v : α) (a : Nat)
    (h : a ∈ (aset l k v).map Prod.fst) : a = k ∨ a ∈ l.map Prod.fst := by
  induction l with
  | nil =>
    simp only [aset, List.map_cons, List.map_nil, List.mem_singleton] at h
    exact Or.inl h
  | cons p rest ih =>
    by_cases hp : p.1 = k
    · simp only [aset, hp, ite_true, List.map_cons, List.mem_cons] at h
      rcases h with h | h
      · exact Or.inl h
      · exact Or.inr (by simp only [List.map_cons, List.mem_cons]; exact Or.inr h)
    · simp only [aset, hp, ite_false, List.map_cons, List.mem_cons] at h
      rcases h with h | h
      · exact Or.inr (by simp only [List.map_cons, List.mem_cons]; exact Or.inl h)
      · rcases ih h with h' | h'
        · exact Or.inl h'
        · exact Or.inr (by simp only [List.map_cons, List.mem_cons]; exact Or.inr h')

theorem keys_aset_nodup {α : Type} (l : List (Nat × α)) (k : Nat) (v : α)
    (h : (l.map Prod.fst).Nodup) : ((aset l k v).map Prod.fst).Nodup := by
  induction l with
  | nil => simp [aset]
  | cons p rest ih =>
    simp only [List.map_cons, List.nodup_cons] at h
    by_cases hp : p.1 = k
    · subst hp
      simpa [aset, List.nodup_cons] using h
    · have := ih h.2
      simp only [aset, hp, ite_false, if_false, List.map_cons, List.nodup_cons]
      refine ⟨?_, this⟩
      intro hmem
      rcases mem_keys_aset rest k v p.1 hmem with h' | h'
      · exact hp h'
      · exact h.1 h'

theorem mem_keys_aerase {α : Type} (l : List (Nat × α)) (k : Nat) (a : Nat)
    (h : a ∈ (aerase l k).map Prod.fst) : a ∈ l.map Prod.fst := by
  induction l with
  | nil => simp [aerase] at h
  | cons p rest ih =>
    by_cases hp : p.1 = k
    · simp only [aerase, hp, ite_true] at h
      exact by simp only [List.map_cons, List.mem_cons]; exact Or.inr (ih h)
    · simp only [aerase, hp, ite_false, List.map_cons, List.mem_cons] at h
      rcases h with h | h
      · simp only [List.map_cons, List.mem_cons]
        exact Or.inl h
      · simp only [List.map_cons, List.mem_cons]
        exact Or.inr (ih h)

theorem keys_aerase_nodup {α : Type} (l : List (Nat × α)) (k : Nat)
    (h : (l.map Prod.fst).Nodup) : ((aerase l k).map Prod.fst).Nodup := by
  induction l with
  | nil => simp [aerase]
  | cons p rest ih =>
    simp only [List.map_cons, List.nodup_cons] at h
    by_cases hp : p.1 = k
    · simp only [aerase, hp, ite_true, if_true]
      exact ih h.2
    · simp only [aerase, hp, ite_false, if_false, List.map_cons, List.nodup_cons]
      exact ⟨fun hm => h.1 (mem_keys_aerase rest k p.1 hm), ih h.2⟩

theorem alookup_aset_isSome {α : Type} (l : List (Nat × α)) (k k' : Nat) (v : α)
    (h : (alookup (aset l k v) k').isSome) : k' = k ∨ (alookup l k').isSome := by
  by_cases hk : k' = k
  · exact Or.inl hk
  · rw [alookup_aset_ne l k k' v hk] at h
    exact Or.inr h

theorem alookup_foldl_aset_isSome {α : Type} (l : List (Nat × α))
    (g0 : List (Nat × α)) (k : Nat)
    (h : (alookup (l.foldl (fun g p => aset g p.1 p.2) g0) k).isSome) :
    (alookup g0 k).isSome ∨ ∃ p ∈ l, p.1 = k := by
  induction l generalizing g0 with
  | nil => exact Or.inl (by simpa using h)
  | cons p rest ih =>
    simp only [List.foldl_cons] at h
    rcases ih (aset g0 p.1 p.2) h with h' | h'
    · rcases alookup_aset_isSome g0 p.1 k p.2 h' with h'' | h''
      · exact Or.inr ⟨p, List.mem_cons_self _ _, h''.symm⟩
      · exact Or.inl h''
    · rcases h' with ⟨q, hq, hqk⟩
      exact Or.inr ⟨q, List.mem_cons_of_mem _ hq, hqk⟩

theorem keys_foldl_aset_nodup {α : Type} (l : List (Nat × α)) (g0 : List (Nat × α))
    (h : (g0.map Prod.fst).Nodup) :
    (((l.foldl (fun g p => aset g p.1 p.2) g0)).map Prod.fst).Nodup := by
  induction l generalizing g0 with
  | nil => simpa using h
  | cons p rest ih =>
    simp only [List.foldl_cons]
    exact ih _ (keys_aset_nodup g0 p.1 p.2 h)

theorem keys_nodup_entry_eq {α : Type} (l : List (Nat × α)) (k : Nat) (a b : α)
    (hnd : (l.map Prod.fst).Nodup) (ha : (k, a) ∈ l) (hb : (k, b) ∈ l) : a = b := by
  induction l with
  | nil => simp at ha
  | cons p rest ih =>
    simp only [List.map_cons, List.nodup_cons] at hnd
    rcases List.mem_cons.mp ha with ha' | ha'
    · rcases List.mem_cons.mp hb with hb' | hb'
      · have hab : ((k, a) : Nat × α) = (k, b) := ha'.trans hb'.symm
        exact (Prod.ext_iff.mp hab).2
      · exfalso
        apply hnd.1
        have : p.1 = k := by rw [← ha']
        rw [this]
        exact List.mem_map.mpr ⟨(k, b), hb', rfl⟩
    · rcases List.mem_cons.mp hb with hb' | hb'
      · exfalso
        apply hnd.1
        have : p.1 = k := by rw [← hb']
        rw [this]
        exact List.mem_map.mpr ⟨(k, a), ha', rfl⟩
      · exact ih hnd.2 ha' hb'

theorem alookup_isSome_exists {κ α : Type} [DecidableEq κ] (l : List (κ × α)) (k : κ)
    (h : (alookup l k).isSome) : ∃ v, alookup l k = some v := by
  cases hv : alookup l k with
  | none => rw [hv] at h; simp at h
  | some v => exact ⟨v, rfl⟩

theorem getUser_storeInv (st : ManagerState) (uid now : Nat) (h : storeInv st) :
    storeInv (st.getUser uid now).2 := by
  obtain ⟨hu, hg, hd⟩ := h
  cases h1 : alookup st.users uid with
  | some u =>
    simpa [ManagerState.getUser, h1] using ⟨hu, hg, hd⟩
  | none =>
    cases h2 : alookup st.userGraveyard uid with
    | some u =>
      simp only [ManagerState.getUser, h1, h2]
      refine ⟨keys_aset_nodup _ _ _ hu, keys_aerase_nodup _ _ hg, ?_⟩
      intro uid' ⟨hul, hgl⟩
      by_cases he : uid' = uid
      · subst he
        rw [alookup_aerase_self] at hgl
        simp at hgl
      · rw [alookup_aset_ne _ _ _ _ he] at hul
        rw [alookup_aerase_ne _ _ _ he] at hgl
        exact hd uid' ⟨hul, hgl⟩
    | none =>
      simp only [ManagerState.getUser, h1, h2]
      refine ⟨keys_aset_nodup _ _ _ hu, hg, ?_⟩
      intro uid' ⟨hul, hgl⟩
      by_cases he : uid' = uid
      · subst he
        rw [h2] at hgl
        simp at hgl
      · rw [alookup_aset_ne _ _ _ _ he] at hul
        exact hd uid' ⟨hul, hgl⟩

theorem cleanup_storeInv (st : ManagerState) (now : Nat) (h : storeInv st) :
    storeInv (st.cleanUpInactiveUsers now) := by
  obtain ⟨hu, hg, hd⟩ := h
  refine ⟨?_, ?_, ?_⟩
  · exact ((List.filter_sublist _).map Prod.fst).nodup hu
  · exact keys_foldl_aset_nodup _ _ hg
  · intro uid' ⟨hul, hgl⟩
    simp only [ManagerState.cleanUpInactiveUsers] at hul hgl
    rcases alookup_foldl_aset_isSome _ _ _ hgl with hold | ⟨p, hpmem, hpk⟩
    · exact hd uid' ⟨alookup_isSome_of_filter _ _ _ hul, hold⟩
    · obtain ⟨v, hv⟩ := alookup_isSome_exists _ _ hul
      have hvmem := alookup_mem _ _ _ hv
      have hvfil := List.mem_filter.mp hvmem
      have hpfil := List.mem_filter.mp hpmem
      subst hpk
      obtain ⟨pk, pv⟩ := p
      have : pv = v := keys_nodup_entry_eq st.users pk pv v hu hpfil.1 hvfil.1
      subst this
      have h1 : 60000 < now - pv.lastUpdateTime := by
        have := hpfil.2
        simpa using this
      have h2 : ¬ 60000 < now - pv.lastUpdateTime := by
        have := hvfil.2
        simpa using this
      exact h2 h1

theorem clearAll_storeInv (st : ManagerState) (p : Bool) (r : String) (now : Nat) :
    storeInv (st.clearAll p r now) := by
  simp only [ManagerState.clearAll]
  refine ⟨by simp [keysNodup], by simp [keysNodup], ?_⟩
  intro uid' ⟨hul, _⟩
  simp [alookup] at hul

theorem applyOp_storeInv (st : ManagerState) (op : StoreOp) (h : storeInv st) :
    storeInv (applyOp st op) := by
  cases op with
  | opGetUser uid now => exact getUser_storeInv st uid now h
  | opCleanup now => exact cleanup_storeInv st now h
  | opClearAll p r now => exact clearAll_storeInv st p r now

theorem applyOps_storeInv (ops : List StoreOp) (st : ManagerState) (h : storeInv st) :
    storeInv (applyOps st ops) := by
  induction ops generalizing st with
  | nil => exact h
  | cons op ops ih => exact ih _ (applyOp_storeInv st op h)

/-- C10: after any sequence of `getUser`, `cleanUpInactiveUsers` and
`clearAll` operations starting from the initial store, every uid is present in
at most one of the live users map and the graveyard. -/
theorem claim_C10 (ops : List StoreOp) (now0 uid : Nat) :
    ¬ ((alookup (applyOps (initialManagerState now0) ops).users uid).isSome
      ∧ (alookup (applyOps (initialManagerState now0) ops).userGraveyard uid).isSome) := by
  have hinit : storeInv (initialManagerState now0) := by
    refine ⟨by simp [keysNodup, initialManagerState], by simp [keysNodup, initialManagerState], ?_⟩
    intro uid' ⟨hul, _⟩
    simp [initialManagerState, alookup] at hul
  exact (applyOps_storeInv ops _ hinit).2.2 uid

/-! ## Session persistence gate (C4) -/

theorem dedupEntries_lookup (l : List (Nat × UserData)) :
    ∀ (seen : List Nat) (p : Nat × UserData), p ∈ dedupEntries seen l →
      p.1 ∉ seen ∧ alookup l p.1 = some p.2 := by
  induction l with
  | nil =>
    intro seen p hp
    simp [dedupEntries] at hp
  | cons q rest ih =>
    intro seen p hp
    by_cases hq : q.1 ∈ seen
    · simp only [dedupEntries, hq, ite_true] at hp
      obtain ⟨hns, hlk⟩ := ih seen p hp
      have hne : ¬ q.1 = p.1 := fun he => hns (he ▸ hq)
      exact ⟨hns, by simp [alookup, hne, hlk]⟩
    · simp only [dedupEntries, hq, ite_false, List.mem_cons] at hp
      rcases hp with hp | hp
      · subst hp
        exact ⟨hq, by simp [alookup]⟩
      · obtain ⟨hns, hlk⟩ := ih (q.1 :: seen) p hp
        have hne : ¬ q.1 = p.1 := fun he => hns (by simp [← he])
        refine ⟨fun hs => hns (List.mem_cons_of_mem _ hs), ?_⟩
        simp [alookup, hne, hlk]

theorem getAnyUser_eq_append (st : ManagerState) (uid : Nat) :
    st.getAnyUser uid = alookup (st.users ++ st.userGraveyard) uid := by
  rw [ManagerState.getAnyUser, alookup_append]

theorem allUserEntries_lookup (st : ManagerState) (p : Nat × UserData)
    (hp : p ∈ allUserEntries st) : st.getAnyUser p.1 = some p.2 := by
  rw [getAnyUser_eq_append]
  exact (dedupEntries_lookup _ [] p hp).2

theorem buildPlayerSnapshot_isSome (st : ManagerState) (uid : Nat) (u : UserData)
    (now : Nat) (h : st.getAnyUser uid = some u) :
    (st.buildPlayerSnapshot uid now).isSome
      = (decide (5000 < u.damageStats.stats.total)
        || decide (5000 < u.healingStats.stats.total)) := by
  rw [ManagerState.buildPlayerSnapshot, h]
  by_cases hq : u.damageStats.stats.total ≤ 5000 ∧ u.healingStats.stats.total ≤ 5000
  · have h1 : ¬ 5000 < u.damageStats.stats.total := by omega
    have h2 : ¬ 5000 < u.healingStats.stats.total := by omega
    simp [UserData.getSummary, hq, h1, h2]
  · rcases Decidable.not_and_iff_or_not.mp hq with h1 | h1
    · have h1' : 5000 < u.damageStats.stats.total := by omega
      simp [UserData.getSummary, hq, h1']
    · have h1' : 5000 < u.healingStats.stats.total := by omega
      simp [UserData.getSummary, hq, h1']

theorem length_filterMap_eq_countP {α β : Type} (f : α → Option β) (P : α → Bool)
    (l : List α) (h : ∀ x ∈ l, (f x).isSome = P x) :
    (l.filterMap f).length = l.countP P := by
  induction l with
  | nil => simp
  | cons x rest ih =>
    have hx := h x (List.mem_cons_self _ _)
    have hrest := ih fun y hy => h y (List.mem_cons_of_mem _ hy)
    cases hfx : f x with
    | none =>
      rw [hfx] at hx
      simp only [Option.isSome_none] at hx
      simp [List.filterMap_cons, hfx, List.countP_cons, ← hx, hrest]
    | some b =>
      rw [hfx] at hx
      simp only [Option.isSome_some] at hx
      simp [List.filterMap_cons, hfx, List.countP_cons, ← hx, hrest]

theorem finalize_players_length (st : ManagerState) (now : Nat) :
    ((allUserEntries st).filterMap fun p => st.buildPlayerSnapshot p.1 now).length
      = (allUserEntries st).countP fun p =>
        decide (5000 < p.2.damageStats.stats.total)
          || decide (5000 < p.2.healingStats.stats.total) := by
  apply length_filterMap_eq_countP
  intro p hp
  exact buildPlayerSnapshot_isSome st p.1 p.2 now (allUserEntries_lookup st p hp)

/-- C4: finalizing an epoch in which every player is at or below the 5000
contribution threshold hands nothing to the persistence collaborator; with an
active session in which exactly one player exceeds 5000 damage (and nobody
exceeds 5000 healing), exactly one record is persisted and its `partySize` is
1. -/
theorem claim_C4 (st : ManagerState) (reasonEnd : String) (now : Nat) :
    ((∀ p ∈ allUserEntries st, p.2.damageStats.stats.total ≤ 5000
        ∧ p.2.healingStats.stats.total ≤ 5000) →
      (st.finalizeAndPersistSession reasonEnd now).2 = [])
    ∧ ∀ sess, st.currentSession = some sess →
        (∀ p ∈ allUserEntries st, p.2.healingStats.stats.total ≤ 5000) →
        ((allUserEntries st).countP fun p =>
          decide (5000 < p.2.damageStats.stats.total)) = 1 →
        ∃ r, (st.finalizeAndPersistSession reasonEnd now).2 = [r] ∧ r.partySize = 1 := by
  constructor
  · intro hall
    cases hcs : st.currentSession with
    | none => simp [ManagerState.finalizeAndPersistSession, hcs]
    | some s =>
      have hlen : ((allUserEntries st).filterMap
          fun p => st.buildPlayerSnapshot p.1 now).length = 0 := by
        rw [finalize_players_length]
        apply List.countP_eq_zero.mpr
        intro p hp
        obtain ⟨h1, h2⟩ := hall p hp
        have h1' : ¬ 5000 < p.2.damageStats.stats.total := by omega
        have h2' : ¬ 5000 < p.2.healingStats.stats.total := by omega
        simp [h1', h2']
      simp [ManagerState.finalizeAndPersistSession, hcs, hlen]
  · intro sess hcs hheal hone
    have hqual : ((allUserEntries st).countP fun p =>
        decide (5000 < p.2.damageStats.stats.total)
          || decide (5000 < p.2.healingStats.stats.total)) = 1 := by
      rw [← hone]
      apply List.countP_congr
      intro p hp
      have hh := hheal p hp
      have hh' : ¬ 5000 < p.2.healingStats.stats.total := by omega
      simp [hh']
    have hlen : ((allUserEntries st).filterMap
        fun p => st.buildPlayerSnapshot p.1 now).length = 1 := by
      rw [finalize_players_length, hqual]
    simp only [ManagerState.finalizeAndPersistSession, hcs, hlen]
    norm_num

def cfgLive : Config := { isPaused := false, onlyRecordEliteDummy := false }

def sessionW : Session :=
  { sid := "s1", sname := "Instance 5", startedAt := 0,
    reasonStart := "instance_change", seq := none, instanceId := some 5,
    fromInstance := none }

def stC4A : ManagerState :=
  { initialManagerState 0 with currentSession := some sessionW }

def stC4B : ManagerState :=
  stC4A.addDamage cfgLive 1 1241 "e" 6000 false false false 0 75 3

theorem claim_C4_witness :
    ((stC4A.finalizeAndPersistSession "manual_clear" 5).2 = [])
    ∧ ∃ r, (stC4B.finalizeAndPersistSession "manual_clear" 5).2 = [r]
        ∧ r.partySize = 1 := by
  constructor
  · refine (claim_C4 stC4A "manual_clear" 5).1 ?_
    intro p hp
    simp [stC4A, initialManagerState, allUserEntries, dedupEntries] at hp
  · exact (claim_C4 stC4B "manual_clear" 5).2 sessionW rfl (by decide) (by decide)

/-! ## Delta Interpreter (PacketProcessor.#processAoiSyncDelta and the
attribute-parsing helpers) -/

/-- `getProfessionNameFromId` in PacketProcessor.js. -/
def getProfessionNameFromId (id : Nat) : String :=
  match id with
  | 1 => "Stormblade"
  | 2 => "Frost Mage"
  | 3 => "Fire Warrior"
  | 4 => "Wind Knight"
  | 5 => "Verdant Oracle"
  | 8 => "Gunner"
  | 9 => "Heavy Guardian"
  | 10 => "Reaper"
  | 11 => "Marksman"
  | 12 => "Shield Knight"
  | 13 => "Soul Musician"
  | _ => ""

/-- `getDamageElement` in PacketProcessor.js. -/
def getDamageElement (p : Nat) : String :=
  match p with
  | 0 => "⚔️物"
  | 1 => "🔥火"
  | 2 => "❄️冰"
  | 3 => "⚡雷"
  | 4 => "🍀森"
  | 5 => "💨风"
  | 6 => "⛰️岩"
  | 7 => "🌟光"
  | 8 => "🌑暗"
  | 9 => "❓？"
  | _ => "⚔️物"

/-- `getDamageSource` in PacketProcessor.js. -/
def getDamageSource (s : Nat) : String :=
  match s with
  | 0 => "Skill"
  | 1 => "Bullet"
  | 2 => "Buff"
  | 3 => "Fall"
  | 4 => "FBullet"
  | 100 => "Other"
  | _ => "Unknown"

/-- `isUuidPlayer`: the low 16 bits of the uuid are the type tag, 640 for
players. -/
def isUuidPlayer (uuid : Nat) : Bool := decide (uuid &&& 65535 = 640)

/-- `isUuidMonster`: tag 64 for monsters. -/
def isUuidMonster (uuid : Nat) : Bool := decide (uuid &&& 65535 = 64)

/-- `uuid.shiftRight(16)`: the stable aggregation uid. -/
def uidOfUuid (uuid : Nat) : Nat := uuid >>> 16

/-- Modelled from the spec (§4.4): each raw attribute value is a small encoded
scalar (string or varint); the byte-level protobuf scalar decode is performed
by the external protobufjs reader, so attributes carry the decoded scalar
here. -/
inductive AttrScalar where
  | strVal (s : String)
  | intVal (n : Nat)

def AttrScalar.asString : AttrScalar → String
  | .strVal s => s
  | .intVal _ => ""

def AttrScalar.asInt : AttrScalar → Nat
  | .strVal _ => 0
  | .intVal n => n

structure AttrPair where
  attrId : Nat
  rawData : Option AttrScalar

/-- Modelled from the spec: the static monster attribute-id → name table
(src/tables/monster_names.json is not part of the source tree). -/
def monsterNamesTable : Nat → Option String := fun _ => none

/-- The `switch (id)` of `#processPlayerAttrs`, written as a total dispatch
table from attribute id (the `AttrType` enum values) to the action taken;
each arm corresponds case-for-case to the source switch. -/
inductive PlayerAttrAction where
  | actName
  | actProfession
  | actFightPoint
  | actKV (key : String)
  | actSkip

def playerAttrActionOf (id : Nat) : PlayerAttrAction :=
  if id = 0x01 then .actName
  else if id = 0xdc then .actProfession
  else if id = 0x272e then .actFightPoint
  else if id = 0x2710 then .actKV "level"
  else if id = 0x274c then .actKV "rank_level"
  else if id = 0x2b66 then .actKV "cri"
  else if id = 0x2b7a then .actKV "lucky"
  else if id = 0x2c2e then .actKV "hp"
  else if id = 0x2c38 then .actKV "max_hp"
  else if id = 0x646d6c then .actKV "element_flag"
  else if id = 0x543cd3c6 then .actKV "energy_flag"
  else if id = 0x64696d then .actKV "reduction_level"
  else .actSkip

def processOnePlayerAttr (uid now : Nat) (st : ManagerState) (a : AttrPair) :
    ManagerState :=
  if a.attrId = 0 ∨ a.rawData.isNone then st
  else
    let raw := a.rawData.getD (AttrScalar.intVal 0)
    match playerAttrActionOf a.attrId with
    | .actName => st.setName uid raw.asString now
    | .actProfession => st.setProfession uid (getProfessionNameFromId raw.asInt) now
    | .actFightPoint => st.setFightPoint uid raw.asInt now
    | .actKV key => st.setAttrKV uid key raw.asInt now
    | .actSkip => st

/-- `PacketProcessor.#processPlayerAttrs`. -/
def processPlayerAttrs (st : ManagerState) (uid : Nat) (attrs : List AttrPair)
    (now : Nat) : ManagerState :=
  attrs.foldl (processOnePlayerAttr uid now) st

/-- One case of the `switch` in `PacketProcessor.#processEnemyAttrs`. -/
def processOneEnemyAttr (uid : Nat) (st : ManagerState) (a : AttrPair) :
    ManagerState :=
  if a.attrId = 0 ∨ a.rawData.isNone then st
  else
    let raw := a.rawData.getD (AttrScalar.intVal 0)
    if a.attrId = 0x01 then { st with enemyName := aset st.enemyName uid raw.asString }
    else if a.attrId = 0x0a then
      match monsterNamesTable raw.asInt with
      | some n => { st with enemyName := aset st.enemyName uid n }
      | none => st
    else if a.attrId = 0x2c2e then { st with enemyHp := aset st.enemyHp uid raw.asInt }
    else if a.attrId = 0x2c38 then
      { st with enemyMaxHp := aset st.enemyMaxHp uid raw.asInt }
    else st

/-- `PacketProcessor.#processEnemyAttrs`. -/
def processEnemyAttrs (st : ManagerState) (uid : Nat) (attrs : List AttrPair) :
    ManagerState :=
  attrs.foldl (processOneEnemyAttr uid) st

/-- Modelled from the spec: the `Heal` member of the protobuf damage-type enum
(src/algo/blueprotobuf.js is not part of the source tree); only its identity
matters here. -/
def EDamageTypeHeal : Nat := 1

structure SyncDamage where
  ownerId : Nat
  topSummonerId : Nat
  attackerUuid : Nat
  value : Option Nat
  luckyValue : Option Nat
  typeFlag : Option Nat
  damageType : Nat
  isDead : Bool
  hpLessenValue : Option Nat
  property : Nat
  damageSource : Option Nat

structure AoiSyncDelta where
  uuid : Option Nat
  attrs : List AttrPair
  damages : List SyncDamage

/-- `d.TopSummonerId || d.AttackerUuid` (absent uuids are 0). -/
def attackerUuidOf (d : SyncDamage) : Nat :=
  if d.topSummonerId ≠ 0 then d.topSummonerId else d.attackerUuid

/-- `d.Value ?? d.LuckyValue ?? Long.ZERO`. -/
def damageValueOf (d : SyncDamage) : Nat :=
  match d.value with
  | some v => v
  | none => d.luckyValue.getD 0

/-- `damageElement.slice(-1)`: the last character of the element label. -/
def lastCharStr (s : String) : String :=
  match s.toList.getLast? with
  | some c => String.mk [c]
  | none => ""

/-- One iteration of the damage loop in
`PacketProcessor.#processAoiSyncDelta`, including the state mutations done
while building the combat-log line (the `getUser` calls resolving display
names). -/
def processOneDamage (cfg : Config) (targetIsPlayer : Bool) (tgtUid : Nat)
    (now : Nat) (st : ManagerState) (d : SyncDamage) : ManagerState :=
  if d.ownerId = 0 then st
  else if attackerUuidOf d = 0 then st
  else
    let attackerIsPlayer := isUuidPlayer (attackerUuidOf d)
    let atkUid := uidOfUuid (attackerUuidOf d)
    let damage := damageValueOf d
    if damage = 0 then st
    else
      let flag := d.typeFlag.getD 0
      let isCrit := decide (flag &&& 1 = 1)
      let isCauseLucky := decide (flag &&& 4 = 4)
      let isHeal := decide (d.damageType = EDamageTypeHeal)
      let isLucky := decide (d.luckyValue.getD 0 ≠ 0)
      let hpLessen := d.hpLessenValue.getD 0
      let damageElement := getDamageElement d.property
      let st2 :=
        if targetIsPlayer then
          let stA :=
            if isHeal then
              st.addHealing cfg (if attackerIsPlayer then atkUid else 0) d.ownerId
                damageElement damage isCrit isLucky isCauseLucky tgtUid now
            else st.addTakenDamage cfg tgtUid damage d.isDead now
          if d.isDead then stA.setAttrKV tgtUid "hp" 0 now else stA
        else
          let stA :=
            if ¬ isHeal ∧ attackerIsPlayer then
              st.addDamage cfg atkUid d.ownerId damageElement damage isCrit isLucky
                isCauseLucky hpLessen tgtUid now
            else st
          if d.isDead then stA.deleteEnemyData tgtUid else stA
      let extra := (if isCrit then ["Crit"] else [])
        ++ (if isLucky then ["Lucky"] else [])
        ++ (if isCauseLucky then ["CauseLucky"] else [])
      let extra := if extra.isEmpty then ["Normal"] else extra
      let actionType := if isHeal then "HEAL" else "DMG"
      let srcR :=
        if attackerIsPlayer then
          let r := st2.getUser atkUid now
          (r.1.name ++ "#" ++ toString atkUid ++ "(player)", r.2)
        else
          (((alookup st2.enemyName atkUid).getD "") ++ "#" ++ toString atkUid
            ++ "(enemy)", st2)
      let tgtR :=
        if targetIsPlayer then
          let r := srcR.2.getUser tgtUid now
          (r.1.name ++ "#" ++ toString tgtUid ++ "(player)", r.2)
        else
          (((alookup srcR.2.enemyName tgtUid).getD "") ++ "#" ++ toString tgtUid
            ++ "(enemy)", srcR.2)
      let log := "[" ++ actionType ++ "] DS: " ++ getDamageSource (d.damageSource.getD 0)
        ++ " SRC: " ++ srcR.1 ++ " TGT: " ++ tgtR.1 ++ " ID: " ++ toString d.ownerId
        ++ " VAL: " ++ toString damage ++ " HPLSN: " ++ toString hpLessen
        ++ " ELEM: " ++ lastCharStr damageElement
        ++ " EXT: " ++ String.intercalate "|" extra
      tgtR.2.addLog cfg log now

/-- The attribute-routing prologue of `#processAoiSyncDelta`: attributes of
the target entity go to player or enemy attribute processing according to the
uuid tag. -/
def attrPhase (st : ManagerState) (targetUuid : Nat) (attrs : List AttrPair)
    (now : Nat) : ManagerState :=
  if attrs.isEmpty then st
  else if isUuidPlayer targetUuid then
    processPlayerAttrs st (uidOfUuid targetUuid) attrs now
  else if isUuidMonster targetUuid then
    processEnemyAttrs st (uidOfUuid targetUuid) attrs
  else st

/-- `PacketProcessor.#processAoiSyncDelta`. -/
def processAoiSyncDelta (cfg : Config) (st : ManagerState) (delta : AoiSyncDelta)
    (now : Nat) : ManagerState :=
  match delta.uuid with
  | none => st
  | some targetUuid =>
    let st1 := attrPhase st targetUuid delta.attrs now
    delta.damages.foldl
      (processOneDamage cfg (isUuidPlayer targetUuid) (uidOfUuid targetUuid) now) st1

/-! ## Per-user statistics view: (damage-dealt total, healing total,
taken-damage total), looked up across the live map and the graveyard. -/

def coreOf (u : UserData) : Nat × Nat × Nat :=
  (u.damageStats.stats.total, u.healingStats.stats.total, u.takenDamage)

def statsView (st : ManagerState) (uid : Nat) : Nat × Nat × Nat :=
  match st.getAnyUser uid with
  | none => (0, 0, 0)
  | some u => coreOf u

theorem coreOf_setName (u : UserData) (n : String) (now : Nat) :
    coreOf (u.setName n now) = coreOf u := rfl

theorem coreOf_setSubProfession (u : UserData) (sp : String) (now : Nat) :
    coreOf (u.setSubProfession sp now) = coreOf u := rfl

theorem coreOf_setFightPoint (u : UserData) (fp now : Nat) :
    coreOf (u.setFightPoint fp now) = coreOf u := rfl

theorem coreOf_setAttrKV (u : UserData) (k : String) (v now : Nat) :
    coreOf (u.setAttrKV k v now) = coreOf u := rfl

theorem coreOf_setProfession (u : UserData) (p : String) (now : Nat) :
    coreOf (u.setProfession p now) = coreOf u := by
  rw [UserData.setProfession]
  split <;> rfl

theorem coreOf_new (uid now : Nat) : coreOf (UserData.new uid now) = (0, 0, 0) := rfl

theorem coreOf_hydrate (u : UserData) (c : CachedUser) (now : Nat) :
    coreOf (hydrateFromCache u c now) = coreOf u := by
  obtain ⟨cn, cp, csp, cfp, cmh⟩ := c
  simp only [hydrateFromCache]
  cases cn <;> cases cp <;> cases csp <;> cases cfp <;> cases cmh <;>
    simp [coreOf_setName, coreOf_setProfession, coreOf_setSubProfession,
      coreOf_setFightPoint, coreOf_setAttrKV, apply_ite coreOf]

theorem coreOf_updateSubProfession (u : UserData) (skillId now : Nat) :
    coreOf (u.updateSubProfession skillId now) = coreOf u := by
  simp only [UserData.updateSubProfession]
  split_ifs <;> simp [UserData.setSubProfession, coreOf]

theorem addRecord_stats_total (s : StatisticData) (v : Nat) (c l : Bool) (hl now : Nat) :
    (s.addRecord v c l hl now).stats.total = s.stats.total + v := by
  simp only [StatisticData.addRecord]
  split_ifs <;> rfl

theorem coreOf_addDamage (u : UserData) (skillId : Nat) (el : String) (dmg : Nat)
    (c l cl : Bool) (hl now : Nat) :
    coreOf (u.addDamage skillId el dmg c l cl hl now)
      = (u.damageStats.stats.total + dmg, u.healingStats.stats.total, u.takenDamage) := by
  simp only [UserData.addDamage]
  rw [coreOf_updateSubProfession]
  simp [coreOf, addRecord_stats_total]

theorem coreOf_addHealing (u : UserData) (skillId : Nat) (el : String) (amt : Nat)
    (c l cl : Bool) (now : Nat) :
    coreOf (u.addHealing skillId el amt c l cl now)
      = (u.damageStats.stats.total, u.healingStats.stats.total + amt, u.takenDamage) := by
  simp only [UserData.addHealing]
  rw [coreOf_updateSubProfession]
  simp [coreOf, addRecord_stats_total]

theorem coreOf_addTakenDamage (u : UserData) (dmg : Nat) (dead : Bool) (now : Nat) :
    coreOf (u.addTakenDamage dmg dead now)
      = (u.damageStats.stats.total, u.healingStats.stats.total, u.takenDamage + dmg) := by
  simp [UserData.addTakenDamage, coreOf]

theorem statsView_getUser_snd (st : ManagerState) (uid now uid' : Nat) :
    statsView (st.getUser uid now).2 uid' = statsView st uid' := by
  cases h1 : alookup st.users uid with
  | some u => simp [ManagerState.getUser, h1]
  | none =>
    cases h2 : alookup st.userGraveyard uid with
    | some u =>
      simp only [ManagerState.getUser, h1, h2]
      by_cases he : uid' = uid
      · subst he
        simp [statsView, ManagerState.getAnyUser, alookup_aset_self, h1, h2, Option.orElse]
      · simp [statsView, ManagerState.getAnyUser, alookup_aset_ne _ _ _ _ he,
          alookup_aerase_ne _ _ _ he]
    | none =>
      simp only [ManagerState.getUser, h1, h2]
      by_cases he : uid' = uid
      · subst he
        cases hc : alookup st.userCache uid' <;> cases hh : alookup st.hpCache uid' <;>
          simp [statsView, ManagerState.getAnyUser, alookup_aset_self, h1, h2, hc, hh,
            coreOf_hydrate, coreOf_setAttrKV, coreOf_new, Option.orElse]
      · simp [statsView, ManagerState.getAnyUser, alookup_aset_ne _ _ _ _ he]

theorem coreOf_getUser_fst (st : ManagerState) (uid now : Nat) :
    coreOf (st.getUser uid now).1 = statsView st uid := by
  cases h1 : alookup st.users uid with
  | some u => simp [ManagerState.getUser, h1, statsView, ManagerState.getAnyUser]
  | none =>
    cases h2 : alookup st.userGraveyard uid with
    | some u =>
      simp [ManagerState.getUser, h1, h2, statsView, ManagerState.getAnyUser, Option.orElse]
    | none =>
      cases hc : alookup st.userCache uid <;> cases hh : alookup st.hpCache uid <;>
        simp [ManagerState.getUser, h1, h2, hc, hh, statsView, ManagerState.getAnyUser,
          coreOf_hydrate, coreOf_setAttrKV, coreOf_new, Option.orElse]

theorem statsView_aset_after_getUser (st : ManagerState) (uid now : Nat) (u2 : UserData)
    (uid' : Nat) :
    statsView { (st.getUser uid now).2 with
        users := aset (st.getUser uid now).2.users uid u2 } uid'
      = if uid' = uid then coreOf u2 else statsView st uid' := by
  by_cases he : uid' = uid
  · subst he
    simp [statsView, ManagerState.getAnyUser, alookup_aset_self, Option.orElse]
  · rw [if_neg he]
    rw [← statsView_getUser_snd st uid now uid']
    simp [statsView, ManagerState.getAnyUser, alookup_aset_ne _ _ _ _ he]

theorem statsView_update_core (st : ManagerState) (uid now uid' : Nat) (u2 : UserData)
    (st2 : ManagerState)
    (hu : st2.users = aset (st.getUser uid now).2.users uid u2)
    (hg : st2.userGraveyard = (st.getUser uid now).2.userGraveyard)
    (hc : coreOf u2 = coreOf (st.getUser uid now).1) :
    statsView st2 uid' = statsView st uid' := by
  have h1 : statsView st2 uid'
      = statsView { (st.getUser uid now).2 with
          users := aset (st.getUser uid now).2.users uid u2 } uid' := by
    simp [statsView, ManagerState.getAnyUser, hu, hg]
  rw [h1, statsView_aset_after_getUser, hc, coreOf_getUser_fst]
  by_cases he : uid' = uid
  · subst he
    simp
  · simp [he]

theorem statsView_addLog (st : ManagerState) (cfg : Config) (log : String)
    (now uid' : Nat) : statsView (st.addLog cfg log now) uid' = statsView st uid' := by
  rw [ManagerState.addLog]
  split <;> rfl

theorem statsView_deleteEnemyData (st : ManagerState) (uid uid' : Nat) :
    statsView (st.deleteEnemyData uid) uid' = statsView st uid' := rfl

theorem statsView_setName (st : ManagerState) (uid : Nat) (n : String) (now uid' : Nat) :
    statsView (st.setName uid n now) uid' = statsView st uid' := by
  simp only [ManagerState.setName]
  split_ifs with h
  · exact statsView_update_core st uid now uid' _ _ rfl rfl (coreOf_setName _ _ _)
  · exact statsView_getUser_snd st uid now uid'

theorem statsView_setProfession (st : ManagerState) (uid : Nat) (p : String)
    (now uid' : Nat) : statsView (st.setProfession uid p now) uid' = statsView st uid' := by
  simp only [ManagerState.setProfession]
  split_ifs with h1 h2
  · rfl
  · exact statsView_update_core st uid now uid' _ _ rfl rfl (coreOf_setProfession _ _ _)
  · exact statsView_getUser_snd st uid now uid'

theorem statsView_setFightPoint (st : ManagerState) (uid fp now uid' : Nat) :
    statsView (st.setFightPoint uid fp now) uid' = statsView st uid' := by
  simp only [ManagerState.setFightPoint]
  split_ifs with h
  · exact statsView_update_core st uid now uid' _ _ rfl rfl rfl
  · exact statsView_getUser_snd st uid now uid'

theorem statsView_setAttrKV (st : ManagerState) (uid : Nat) (key : String)
    (value now uid' : Nat) :
    statsView (st.setAttrKV uid key value now) uid' = statsView st uid' := by
  simp only [ManagerState.setAttrKV]
  split_ifs with h1 h2 <;>
    exact statsView_update_core st uid now uid' _ _ rfl rfl rfl

theorem statsView_processOnePlayerAttr (uid now : Nat) (st : ManagerState)
    (a : AttrPair) (uid' : Nat) :
    statsView (processOnePlayerAttr uid now st a) uid' = statsView st uid' := by
  rw [processOnePlayerAttr]
  by_cases h0 : a.attrId = 0 ∨ a.rawData.isNone
  · rw [if_pos h0]
  · rw [if_neg h0]
    cases playerAttrActionOf a.attrId <;>
      first
        | rfl
        | apply statsView_setName
        | apply statsView_setProfession
        | apply statsView_setFightPoint
        | apply statsView_setAttrKV

theorem statsView_processPlayerAttrs (st : ManagerState) (uid : Nat)
    (attrs : List AttrPair) (now uid' : Nat) :
    statsView (processPlayerAttrs st uid attrs now) uid' = statsView st uid' := by
  induction attrs generalizing st with
  | nil => rfl
  | cons a rest ih =>
    show statsView (processPlayerAttrs (processOnePlayerAttr uid now st a) uid rest now)
      uid' = _
    rw [ih]
    exact statsView_processOnePlayerAttr uid now st a uid'

theorem statsView_processOneEnemyAttr (uid : Nat) (st : ManagerState) (a : AttrPair)
    (uid' : Nat) :
    statsView (processOneEnemyAttr uid st a) uid' = statsView st uid' := by
  rw [processOneEnemyAttr]
  split_ifs <;> rfl

theorem statsView_processEnemyAttrs (st : ManagerState) (uid : Nat)
    (attrs : List AttrPair) (uid' : Nat) :
    statsView (processEnemyAttrs st uid attrs) uid' = statsView st uid' := by
  induction attrs generalizing st with
  | nil => rfl
  | cons a rest ih =>
    show statsView (processEnemyAttrs (processOneEnemyAttr uid st a) uid rest) uid' = _
    rw [ih]
    exact statsView_processOneEnemyAttr uid st a uid'

theorem statsView_addHealing_char (st : ManagerState) (cfg : Config)
    (uid skillId : Nat) (el : String) (amt : Nat) (c l cl : Bool) (tgt now uid' : Nat)
    (hnp : cfg.isPaused = false) (h0 : uid ≠ 0) :
    statsView (st.addHealing cfg uid skillId el amt c l cl tgt now) uid'
      = if uid' = uid then
          ((statsView st uid).1, (statsView st uid).2.1 + amt, (statsView st uid).2.2)
        else statsView st uid' := by
  simp only [ManagerState.addHealing, hnp, Bool.false_eq_true, if_false, ne_eq, h0,
    not_false_eq_true, if_true, ite_false, ite_true]
  have h1 := statsView_aset_after_getUser st uid now
    ((st.getUser uid now).1.addHealing skillId el amt c l cl now) uid'
  rw [coreOf_addHealing] at h1
  rw [← coreOf_getUser_fst st uid now]
  exact h1

theorem statsView_addTakenDamage_char (st : ManagerState) (cfg : Config)
    (uid dmg : Nat) (dead : Bool) (now uid' : Nat) (hnp : cfg.isPaused = false) :
    statsView (st.addTakenDamage cfg uid dmg dead now) uid'
      = if uid' = uid then
          ((statsView st uid).1, (statsView st uid).2.1, (statsView st uid).2.2 + dmg)
        else statsView st uid' := by
  simp only [ManagerState.addTakenDamage, hnp, Bool.false_eq_true, if_false, ite_false]
  have h1 := statsView_aset_after_getUser st uid now
    ((st.getUser uid now).1.addTakenDamage dmg dead now) uid'
  rw [coreOf_addTakenDamage] at h1
  rw [← coreOf_getUser_fst st uid now]
  exact h1

theorem addHealing_unknown (st : ManagerState) (cfg : Config) (skillId : Nat)
    (el : String) (amt : Nat) (c l cl : Bool) (tgt now : Nat) :
    st.addHealing cfg 0 skillId el amt c l cl tgt now = st := by
  simp [ManagerState.addHealing]

theorem monster_not_player (uuid : Nat) (h : isUuidMonster uuid = true) :
    isUuidPlayer uuid = false := by
  simp only [isUuidMonster, decide_eq_true_eq] at h
  simp [isUuidPlayer, h]

theorem player_uuid_ne_zero (uuid : Nat) (h : isUuidPlayer uuid = true) : uuid ≠ 0 := by
  simp only [isUuidPlayer, decide_eq_true_eq] at h
  intro he
  subst he
  simp at h

theorem processAoiSyncDelta_single (cfg : Config) (st : ManagerState) (tu : Nat)
    (attrs : List AttrPair) (d : SyncDamage) (now : Nat) :
    processAoiSyncDelta cfg st ⟨some tu, attrs, [d]⟩ now
      = processOneDamage cfg (isUuidPlayer tu) (uidOfUuid tu) now
          (attrPhase st tu attrs now) d := rfl

theorem statsView_attrPhase (st : ManagerState) (tu : Nat) (attrs : List AttrPair)
    (now uid' : Nat) :
    statsView (attrPhase st tu attrs now) uid' = statsView st uid' := by
  rw [attrPhase]
  split_ifs <;>
    first
      | rfl
      | apply statsView_processPlayerAttrs
      | apply statsView_processEnemyAttrs

theorem processOneDamage_monster_view (cfg : Config) (tgtUid now : Nat)
    (st : ManagerState) (d : SyncDamage) (uid' : Nat)
    (hskip : d.damageType = EDamageTypeHeal ∨ isUuidPlayer (attackerUuidOf d) = false) :
    statsView (processOneDamage cfg false tgtUid now st d) uid' = statsView st uid' := by
  rw [processOneDamage]
  by_cases h1 : d.ownerId = 0
  · rw [if_pos h1]
  · rw [if_neg h1]
    by_cases h2 : attackerUuidOf d = 0
    · rw [if_pos h2]
    · rw [if_neg h2]
      by_cases h3 : damageValueOf d = 0
      · simp [h3]
      · rcases hskip with hh | hax
        · by_cases hak : isUuidPlayer (attackerUuidOf d) = true <;>
            by_cases hdd : d.isDead <;>
              simp [h3, hh, hak, hdd, statsView_addLog, statsView_getUser_snd,
                statsView_deleteEnemyData]
        · by_cases hdd : d.isDead <;>
            simp [h3, hax, hdd, statsView_addLog, statsView_getUser_snd,
              statsView_deleteEnemyData]

theorem processOneDamage_player_nonheal_view (cfg : Config) (tgtUid now : Nat)
    (st : ManagerState) (d : SyncDamage) (uid' : Nat)
    (hnh : d.damageType ≠ EDamageTypeHeal) (hnp : cfg.isPaused = false)
    (h1 : d.ownerId ≠ 0) (h2 : attackerUuidOf d ≠ 0) (h3 : damageValueOf d ≠ 0) :
    statsView (processOneDamage cfg true tgtUid now st d) uid'
      = if uid' = tgtUid then
          ((statsView st tgtUid).1, (statsView st tgtUid).2.1,
            (statsView st tgtUid).2.2 + damageValueOf d)
        else statsView st uid' := by
  rw [processOneDamage, if_neg h1, if_neg h2]
  by_cases hak : isUuidPlayer (attackerUuidOf d) = true <;>
    by_cases hdd : d.isDead <;>
      simp [h3, hnh, hnp, hdd, hak, statsView_addLog, statsView_getUser_snd,
        statsView_setAttrKV, statsView_addTakenDamage_char]

theorem processOneDamage_player_heal_view (cfg : Config) (tgtUid now : Nat)
    (st : ManagerState) (d : SyncDamage) (uid' : Nat)
    (hh : d.damageType = EDamageTypeHeal) (hnp : cfg.isPaused = false)
    (hak : isUuidPlayer (attackerUuidOf d) = true)
    (h0 : uidOfUuid (attackerUuidOf d) ≠ 0)
    (h1 : d.ownerId ≠ 0) (h3 : damageValueOf d ≠ 0) :
    statsView (processOneDamage cfg true tgtUid now st d) uid'
      = if uid' = uidOfUuid (attackerUuidOf d) then
          ((statsView st (uidOfUuid (attackerUuidOf d))).1,
            (statsView st (uidOfUuid (attackerUuidOf d))).2.1 + damageValueOf d,
            (statsView st (uidOfUuid (attackerUuidOf d))).2.2)
        else statsView st uid' := by
  have h2 : attackerUuidOf d ≠ 0 := player_uuid_ne_zero _ hak
  rw [processOneDamage, if_neg h1, if_neg h2]
  by_cases hdd : d.isDead <;>
    simp [h3, hh, hnp, hdd, hak, h0, statsView_addLog, statsView_getUser_snd,
      statsView_setAttrKV, statsView_addHealing_char]

/-- C5: player/monster asymmetric crediting.  A delta on a monster target
mutates no per-user damage, healing or taken-damage statistics when the event
is a heal or the attacker is not a player; a non-heal delta on a player target
adds the magnitude only to the target's taken-damage total, and never to any
player's damage-dealt (or healing) statistics. -/
theorem claim_C5 (cfg : Config) (st : ManagerState) (tu : Nat) (attrs : List AttrPair)
    (d : SyncDamage) (now : Nat) :
    (isUuidMonster tu = true →
      (d.damageType = EDamageTypeHeal ∨ isUuidPlayer (attackerUuidOf d) = false) →
      ∀ uid', statsView (processAoiSyncDelta cfg st ⟨some tu, attrs, [d]⟩ now) uid'
        = statsView st uid')
    ∧ (isUuidPlayer tu = true → d.damageType ≠ EDamageTypeHeal →
      cfg.isPaused = false → d.ownerId ≠ 0 → attackerUuidOf d ≠ 0 →
      damageValueOf d ≠ 0 →
      ∀ uid', statsView (processAoiSyncDelta cfg st ⟨some tu, attrs, [d]⟩ now) uid'
        = if uid' = uidOfUuid tu then
            ((statsView st (uidOfUuid tu)).1, (statsView st (uidOfUuid tu)).2.1,
              (statsView st (uidOfUuid tu)).2.2 + damageValueOf d)
          else statsView st uid') := by
  constructor
  · intro htm hskip uid'
    have htp := monster_not_player tu htm
    rw [processAoiSyncDelta_single, htp,
      processOneDamage_monster_view cfg (uidOfUuid tu) now _ d uid' hskip]
    exact statsView_attrPhase st tu attrs now uid'
  · intro htp hnh hnp h1 h2 h3 uid'
    rw [processAoiSyncDelta_single, htp,
      processOneDamage_player_nonheal_view cfg (uidOfUuid tu) now _ d uid' hnh hnp h1
        h2 h3]
    simp [statsView_attrPhase]

def dC5heal : SyncDamage :=
  { ownerId := 100, topSummonerId := 0, attackerUuid := 5 * 65536 + 640,
    value := some 200, luckyValue := none, typeFlag := none,
    damageType := EDamageTypeHeal, isDead := false, hpLessenValue := none,
    property := 0, damageSource := none }

def dC5dmg : SyncDamage :=
  { ownerId := 100, topSummonerId := 0, attackerUuid := 5 * 65536 + 64,
    value := some 300, luckyValue := none, typeFlag := none,
    damageType := 0, isDead := false, hpLessenValue := none,
    property := 0, damageSource := none }

theorem claim_C5_witness :
    (statsView (processAoiSyncDelta cfgLive (initialManagerState 0)
        ⟨some (9 * 65536 + 64), [], [dC5heal]⟩ 0) 5
      = statsView (initialManagerState 0) 5)
    ∧ statsView (processAoiSyncDelta cfgLive (initialManagerState 0)
        ⟨some (7 * 65536 + 640), [], [dC5dmg]⟩ 0) 7
      = if (7 : Nat) = uidOfUuid (7 * 65536 + 640) then
          ((statsView (initialManagerState 0) (uidOfUuid (7 * 65536 + 640))).1,
            (statsView (initialManagerState 0) (uidOfUuid (7 * 65536 + 640))).2.1,
            (statsView (initialManagerState 0) (uidOfUuid (7 * 65536 + 640))).2.2
              + damageValueOf dC5dmg)
        else statsView (initialManagerState 0) 7 := by
  constructor
  · exact (claim_C5 cfgLive (initialManagerState 0) (9 * 65536 + 64) [] dC5heal 0).1
      (by decide) (Or.inl rfl) 5
  · exact (claim_C5 cfgLive (initialManagerState 0) (7 * 65536 + 640) [] dC5dmg 0).2
      (by decide) (by decide) rfl (by decide) (by decide) (by decide) 7

/-- C2 (amended): a heal on a player target is credited to the attacker's
healing statistics only when the attacker itself classifies as a player with a
nonzero uid: in that case the attacker's healing total grows by the event
magnitude and nothing else changes. -/
theorem claim_C2 (cfg : Config) (st : ManagerState) (tu : Nat) (attrs : List AttrPair)
    (d : SyncDamage) (now : Nat)
    (htp : isUuidPlayer tu = true)
    (hh : d.damageType = EDamageTypeHeal)
    (hak : isUuidPlayer (attackerUuidOf d) = true)
    (h0 : uidOfUuid (attackerUuidOf d) ≠ 0)
    (h1 : d.ownerId ≠ 0)
    (h3 : damageValueOf d ≠ 0)
    (hnp : cfg.isPaused = false) :
    ∀ uid', statsView (processAoiSyncDelta cfg st ⟨some tu, attrs, [d]⟩ now) uid'
      = if uid' = uidOfUuid (attackerUuidOf d) then
          ((statsView st (uidOfUuid (attackerUuidOf d))).1,
            (statsView st (uidOfUuid (attackerUuidOf d))).2.1 + damageValueOf d,
            (statsView st (uidOfUuid (attackerUuidOf d))).2.2)
        else statsView st uid' := by
  intro uid'
  rw [processAoiSyncDelta_single, htp,
    processOneDamage_player_heal_view cfg (uidOfUuid tu) now _ d uid' hh hnp hak h0
      h1 h3]
  simp [statsView_attrPhase]

theorem claim_C2_witness :
    statsView (processAoiSyncDelta cfgLive (initialManagerState 0)
        ⟨some (7 * 65536 + 640), [], [dC5heal]⟩ 0) 5
      = if (5 : Nat) = uidOfUuid (attackerUuidOf dC5heal) then
          ((statsView (initialManagerState 0) (uidOfUuid (attackerUuidOf dC5heal))).1,
            (statsView (initialManagerState 0)
              (uidOfUuid (attackerUuidOf dC5heal))).2.1 + damageValueOf dC5heal,
            (statsView (initialManagerState 0)
              (uidOfUuid (attackerUuidOf dC5heal))).2.2)
        else statsView (initialManagerState 0) 5 :=
  claim_C2 cfgLive (initialManagerState 0) (7 * 65536 + 640) [] dC5heal 0
    (by decide) rfl (by decide) (by decide) (by decide) (by decide) rfl 5

/-- C2 counterexample input: a heal on a player target whose attacker is a
monster (so the crediting uid is 0). -/
def c2damage : SyncDamage :=
  { ownerId := 100, topSummonerId := 0, attackerUuid := 5 * 65536 + 64,
    value := some 100, luckyValue := none, typeFlag := none,
    damageType := EDamageTypeHeal, isDead := false, hpLessenValue := none,
    property := 0, damageSource := none }

def c2delta : AoiSyncDelta :=
  { uuid := some (7 * 65536 + 640), attrs := [], damages := [c2damage] }

def c2state : ManagerState :=
  processAoiSyncDelta cfgLive (initialManagerState 0) c2delta 0

/-- C2 counterexample: after feeding an unknown-attacker (uid-0) heal on a
player target to the empty store, the only user record in existence has
healing total 0 and the graveyard is empty — no user record's healing
statistics increased, refuting the claim as stated. -/
theorem claim_C2_counterexample :
    (initialManagerState 0).users.map Prod.fst = []
    ∧ (c2state.users.map fun p => p.2.healingStats.stats.total) = [0]
    ∧ c2state.userGraveyard.map Prod.fst = [] := by
  refine ⟨rfl, ?_, ?_⟩ <;> decide

end BPSR
